import Mathlib

/-!
# PDF viewer: controller, engine, status text and tabs

A shallow embedding of `controller.go` and `pdf_engine.go`, of the status
strings of `i18n.go` and of the tab handling of `ui.go`.

* Go `int` values are `Int`.  The only arithmetic on them is `currentPage++`,
  guarded by `currentPage < pageCount`, `currentPage--`, guarded by
  `currentPage > 1`, and `pageNum-1`, guarded by `pageNum ≥ 1`, so no operation
  can leave the 64-bit range.
* Go `float64` zoom values are exact rationals (`ℚ`): the constants `0.5`,
  `1.0`, `1.25`, `3.0` are the rationals `1/2`, `1`, `5/4`, `3`, and the
  arithmetic of `ZoomIn` and `ZoomOut` is exact; NaN and infinities are outside
  the model.  Where a float64 product is converted to `int` (the dpi of
  `RenderCurrentPage`, the zoom percentage of the status text and of the zoom
  label) the product is first rounded to the nearest float64, `float64 x`, as
  the Go multiplication does, and then truncated.
* A pointer that may be `nil` is an `Option`; a Go `error` result is an
  `Option Err` (`none` is `nil`).
* The file system and the go-fitz library are a parameter `World`; every call
  made to them is recorded in a list of `Call`s returned next to the result.
* `fmt.Sprintf` is string concatenation: `%d` is the decimal numeral, `%.1f`
  the value rounded to the nearest tenth, `%%` a percent sign.
-/

namespace PdfViewer

/-! ## External collaborators -/

/-- What `os.Stat` reports, as far as the program looks at it. -/
inductive StatResult where
  | ok (size : Int)
  | notExist
  | otherError
  deriving DecidableEq

/-- A go-fitz document: an identity for the native handle and what
`NumPage` reports. -/
structure FitzDocument where
  handle : Nat
  numPage : Int
  deriving DecidableEq

/-- A rendered bitmap (`image.Image`), kept abstract. -/
structure Image where
  id : Nat
  deriving DecidableEq

/-- The error values the controller and the engine build with `fmt.Errorf`. -/
inductive Err where
  /-- Message `"文件不存在: %s"`. -/
  | fileNotExist (path : String)
  /-- Message `"无法打开 PDF: %w"`. -/
  | cannotOpen (cause : String)
  /-- Message `"未打开文档"`. -/
  | noDocument
  /-- Message `"页码超出范围: %d (1-%d)"`, from `Controller.GoToPage`. -/
  | pageOutOfRange (pageNum : Int) (pageCount : Int)
  /-- Message `"页码超出范围: %d (总页数: %d)"`, from `PDFEngine.RenderPage`. -/
  | renderOutOfRange (pageNum : Int) (pageCount : Int)
  /-- Message `"渲染失败: %w"`. -/
  | renderFailed (cause : String)
  deriving DecidableEq

/-- The file system and the go-fitz library. -/
structure World where
  /-- Result of `os.Stat(path)`. -/
  stat : String → StatResult
  /-- Result of `fitz.New(path)`. -/
  fitzNew : String → Except String FitzDocument
  /-- Result of `doc.ImageDPI(pageIndex, dpi)`, with a 0-based page index. -/
  imageDPI : FitzDocument → Int → ℚ → Except String Image

/-- A call made to the file system or to go-fitz. -/
inductive Call where
  | stat (path : String)
  | fitzNew (path : String)
  | imageDPI (doc : FitzDocument) (pageIndex : Int) (dpi : ℚ)
  | close (doc : FitzDocument)
  deriving DecidableEq

/-! ## pdf_engine.go -/

/-- The struct `PDFEngine`. -/
structure PDFEngine where
  filePath : String
  document : FitzDocument
  pageCount : Int
  deriving DecidableEq

/-- Go `NewPDFEngine(filePath)`: the engine or the error, with the calls made. -/
def NewPDFEngine (w : World) (filePath : String) : Except Err PDFEngine × List Call :=
  match w.stat filePath with
  | .notExist => (.error (.fileNotExist filePath), [.stat filePath])
  | _ =>
    match w.fitzNew filePath with
    | .error e => (.error (.cannotOpen e), [.stat filePath, .fitzNew filePath])
    | .ok doc =>
      (.ok { filePath := filePath, document := doc, pageCount := doc.numPage },
        [.stat filePath, .fitzNew filePath])

/-- Go `PDFEngine.GetPageCount`. -/
def PDFEngine.GetPageCount (e : PDFEngine) : Int := e.pageCount

/-- Go `PDFEngine.RenderPage(pageNum, dpi)`: the image or the error, with the
calls made to go-fitz. -/
def PDFEngine.RenderPage (w : World) (e : PDFEngine) (pageNum : Int) (dpi : Int) :
    Except Err Image × List Call :=
  if pageNum < 1 ∨ pageNum > e.pageCount then
    (.error (.renderOutOfRange pageNum e.pageCount), [])
  else
    match w.imageDPI e.document (pageNum - 1) (dpi : ℚ) with
    | .error cause => (.error (.renderFailed cause), [.imageDPI e.document (pageNum - 1) (dpi : ℚ)])
    | .ok img => (.ok img, [.imageDPI e.document (pageNum - 1) (dpi : ℚ)])

/-! ## controller.go -/

/-- The struct `Controller`. -/
structure Controller where
  engine : Option PDFEngine
  currentPage : Int
  zoomLevel : ℚ
  baseDPI : Int
  deriving DecidableEq

/-- Go `NewController()`. -/
def NewController : Controller :=
  { engine := none, currentPage := 1, zoomLevel := 1.0, baseDPI := 150 }

/-- Go `Controller.OpenPDF(filePath)`: the error (`none` for `nil`), the
controller afterwards, and the calls made. -/
def Controller.OpenPDF (w : World) (c : Controller) (filePath : String) :
    Option Err × Controller × List Call :=
  match NewPDFEngine w filePath with
  | (.error err, calls) => (some err, c, calls)
  | (.ok engine, calls) =>
    (none, { c with engine := some engine, currentPage := 1, zoomLevel := 1.0 }, calls)

/-- Go `Controller.HasDocument`. -/
def Controller.HasDocument (c : Controller) : Bool := c.engine.isSome

/-- Go `Controller.GetCurrentPage`. -/
def Controller.GetCurrentPage (c : Controller) : Int := c.currentPage

/-- Go `Controller.GetPageCount`. -/
def Controller.GetPageCount (c : Controller) : Int :=
  match c.engine with
  | none => 0
  | some e => e.GetPageCount

/-- Go `Controller.GetZoomLevel`. -/
def Controller.GetZoomLevel (c : Controller) : ℚ := c.zoomLevel

/-- Go `Controller.NextPage`: the returned flag and the controller afterwards. -/
def Controller.NextPage (c : Controller) : Bool × Controller :=
  match c.engine with
  | none => (false, c)
  | some e =>
    if c.currentPage < e.GetPageCount then
      (true, { c with currentPage := c.currentPage + 1 })
    else (false, c)

/-- Go `Controller.PrevPage`. -/
def Controller.PrevPage (c : Controller) : Bool × Controller :=
  match c.engine with
  | none => (false, c)
  | some _ =>
    if c.currentPage > 1 then
      (true, { c with currentPage := c.currentPage - 1 })
    else (false, c)

/-- Go `Controller.FirstPage`. -/
def Controller.FirstPage (c : Controller) : Bool × Controller :=
  match c.engine with
  | none => (false, c)
  | some _ =>
    if c.currentPage ≠ 1 then
      (true, { c with currentPage := 1 })
    else (false, c)

/-- Go `Controller.LastPage`. -/
def Controller.LastPage (c : Controller) : Bool × Controller :=
  match c.engine with
  | none => (false, c)
  | some e =>
    let lastPage := e.GetPageCount
    if c.currentPage ≠ lastPage then
      (true, { c with currentPage := lastPage })
    else (false, c)

/-- Go `Controller.GoToPage(pageNum)`: the error (`none` for `nil`) and the
controller afterwards. -/
def Controller.GoToPage (c : Controller) (pageNum : Int) : Option Err × Controller :=
  match c.engine with
  | none => (some .noDocument, c)
  | some e =>
    if pageNum < 1 ∨ pageNum > e.GetPageCount then
      (some (.pageOutOfRange pageNum e.GetPageCount), c)
    else (none, { c with currentPage := pageNum })

/-- Go `Controller.SetZoom(level)`. -/
def Controller.SetZoom (c : Controller) (level : ℚ) : Controller :=
  let level := if level < 0.5 then 0.5 else if level > 3.0 then 3.0 else level
  { c with zoomLevel := level }

/-- Go `Controller.ZoomIn`. -/
def Controller.ZoomIn (c : Controller) : Controller :=
  let newZoom := c.zoomLevel * 1.25
  let newZoom := if newZoom > 3.0 then 3.0 else newZoom
  { c with zoomLevel := newZoom }

/-- Go `Controller.ZoomOut`. -/
def Controller.ZoomOut (c : Controller) : Controller :=
  let newZoom := c.zoomLevel / 1.25
  let newZoom := if newZoom < 0.5 then 0.5 else newZoom
  { c with zoomLevel := newZoom }

/-- Go `Controller.ResetZoom`. -/
def Controller.ResetZoom (c : Controller) : Controller :=
  { c with zoomLevel := 1.0 }

/-- The nearest integer to `q`, a tie going to the even neighbour: the
rounding of IEEE 754 arithmetic, and the one `fmt` applies to the exact value
when it drops digits. -/
def roundHalfEven (q : ℚ) : Int :=
  let f := ⌊q⌋
  if q - f < 1 / 2 then f
  else if q - f > 1 / 2 then f + 1
  else if f % 2 = 0 then f else f + 1

/-- The float64 nearest to `x`, a tie going to the even mantissa: what a Go
float64 multiplication returns when `x` is the exact product of its operands.
The mantissa has 53 bits, so the last bit of `x` weighs `2 ^ (log2 |x| - 52)`;
the exponent range is taken as unbounded (no overflow, no subnormals). -/
def float64 (x : ℚ) : ℚ :=
  if x = 0 then 0
  else (roundHalfEven (x / 2 ^ (Int.log 2 |x| - 52)) : ℚ) * 2 ^ (Int.log 2 |x| - 52)

/-- Go's conversion `int(f)` of a float to an integer: the fractional part is
discarded (truncation toward zero). -/
def goInt (f : ℚ) : Int := Int.tdiv f.num (f.den : Int)

/-- Go `Controller.RenderCurrentPage`: the image or the error, with the calls
made to go-fitz. -/
def Controller.RenderCurrentPage (w : World) (c : Controller) :
    Except Err Image × List Call :=
  match c.engine with
  | none => (.error .noDocument, [])
  | some e =>
    let dpi := goInt (float64 ((c.baseDPI : ℚ) * c.zoomLevel))
    e.RenderPage w c.currentPage dpi

/-! ## Sequences of operations -/

/-- One call on a controller. -/
inductive Op where
  | openPDF (filePath : String)
  | nextPage
  | prevPage
  | firstPage
  | lastPage
  | goToPage (pageNum : Int)
  | setZoom (level : ℚ)
  | zoomIn
  | zoomOut
  | resetZoom
  deriving DecidableEq

/-- The controller after one call. -/
def Op.apply (w : World) (c : Controller) : Op → Controller
  | .openPDF filePath => (c.OpenPDF w filePath).2.1
  | .nextPage => c.NextPage.2
  | .prevPage => c.PrevPage.2
  | .firstPage => c.FirstPage.2
  | .lastPage => c.LastPage.2
  | .goToPage n => (c.GoToPage n).2
  | .setZoom z => c.SetZoom z
  | .zoomIn => c.ZoomIn
  | .zoomOut => c.ZoomOut
  | .resetZoom => c.ResetZoom

/-- The controller after a sequence of calls, made in order. -/
def run (w : World) (c : Controller) (ops : List Op) : Controller :=
  ops.foldl (Op.apply w) c

/-- The page navigation calls: `NextPage`, `PrevPage`, `FirstPage`,
`LastPage`, `GoToPage`. -/
def Op.isNav : Op → Bool
  | .nextPage | .prevPage | .firstPage | .lastPage | .goToPage _ => true
  | _ => false

/-- A world with one ten-page file, `doc.pdf`, and nothing else. -/
def demoWorld : World where
  stat := fun p => if p = "doc.pdf" then .ok 2048 else .notExist
  fitzNew := fun p =>
    if p = "doc.pdf" then .ok { handle := 1, numPage := 10 } else .error "no such file"
  imageDPI := fun doc page _ =>
    if 0 ≤ page ∧ page < doc.numPage then .ok { id := page.toNat } else .error "bad page"

/-- The engine `NewPDFEngine` builds for `doc.pdf` in `demoWorld`. -/
def demoEngine : PDFEngine :=
  { filePath := "doc.pdf", document := { handle := 1, numPage := 10 }, pageCount := 10 }

/-- A controller showing page `p` of `doc.pdf` at zoom `z`. -/
def demoController (p : Int) (z : ℚ) : Controller :=
  { engine := some demoEngine, currentPage := p, zoomLevel := z, baseDPI := 150 }

/-! ## Status text: i18n.go and `Controller.GetStatusText` -/

/-- The struct `Translations`, reduced to the four status strings, the only
fields the controller reads (the other fields are menu, message, dialog and
hint texts). -/
structure Translations where
  StatusNoDocument : String
  StatusPage : String
  StatusZoom : String
  StatusSize : String
  deriving DecidableEq

/-- Go `getEnglishTranslations()`, status strings. -/
def getEnglishTranslations : Translations :=
  { StatusNoDocument := "No document open"
    StatusPage := "Page"
    StatusZoom := "Zoom"
    StatusSize := "Size" }

/-- Go `getChineseTranslations()`, status strings. -/
def getChineseTranslations : Translations :=
  { StatusNoDocument := "未打开文档"
    StatusPage := "第"
    StatusZoom := "缩放"
    StatusSize := "大小" }

/-- The type `Language`, a string. -/
abbrev Language := String

/-- The constant `LangEnglish`. -/
def LangEnglish : Language := "en"

/-- The constant `LangChinese`. -/
def LangChinese : Language := "zh"

/-- Go `GetTranslations(lang)`: the Chinese table for `LangChinese`, the
English one for every other language. -/
def GetTranslations (lang : Language) : Translations :=
  if lang = LangChinese then getChineseTranslations else getEnglishTranslations

/-- Go `filepath.Base(path)` with `/` as the separator: `"."` for the empty
path, trailing slashes dropped, then what follows the last slash, and `"/"`
when nothing is left. -/
def filepathBase (path : String) : String :=
  if path = "" then "."
  else
    let stripped := path.toList.reverse.dropWhile (fun ch => ch == '/')
    let name := (stripped.takeWhile (fun ch => ch != '/')).reverse
    if name = [] then "/" else String.mk name

/-- Go `PDFEngine.GetFileName`. -/
def PDFEngine.GetFileName (e : PDFEngine) : String := filepathBase e.filePath

/-- Go `PDFEngine.GetFileSize`: the size, or `none` when `os.Stat` fails. -/
def PDFEngine.GetFileSize (w : World) (e : PDFEngine) : Option Int :=
  match w.stat e.filePath with
  | .ok size => some size
  | _ => none

/-- Go `PDFEngine.Close`: the calls made.  `NewPDFEngine` always stores a
document, so the `nil` check passes. -/
def PDFEngine.Close (e : PDFEngine) : List Call := [.close e.document]

/-- Digits of a number of tenths `t ≥ 0`: integer part, point, one decimal. -/
def tenthsString (t : Int) : String :=
  toString (t / 10) ++ "." ++ toString (t % 10)

/-- Go `fmt.Sprintf("%.1f", q)`: `q` rounded to one decimal. -/
def sprintfF1 (q : ℚ) : String :=
  if q < 0 then "-" ++ tenthsString (roundHalfEven (-q * 10))
  else tenthsString (roundHalfEven (q * 10))

/-- The file size text built in `Controller.GetStatusText`
(controller.go, lines 185 to 191). -/
def formatFileSize (fileSize : Int) : String :=
  if fileSize < 1024 then toString fileSize ++ " B"
  else if fileSize < 1024 * 1024 then sprintfF1 ((fileSize : ℚ) / 1024) ++ " KB"
  else sprintfF1 ((fileSize : ℚ) / (1024 * 1024)) ++ " MB"

/-- Go `Controller.GetStatusText(tr)`; the format is
`"%s  |  %s %d / %d %s  |  %s: %d%%  |  %s: %s"`. -/
def Controller.GetStatusText (w : World) (c : Controller) (tr : Translations) : String :=
  match c.engine with
  | none => tr.StatusNoDocument
  | some e =>
    let fileName := e.GetFileName
    let fileSizeStr :=
      match e.GetFileSize w with
      | some fileSize => formatFileSize fileSize
      | none => ""
    fileName ++ "  |  " ++ tr.StatusPage ++ " " ++ toString c.currentPage ++ " / " ++
      toString e.GetPageCount ++ " " ++ "页" ++ "  |  " ++ tr.StatusZoom ++ ": " ++
      toString (goInt (float64 (c.zoomLevel * 100))) ++ "%" ++ "  |  " ++ tr.StatusSize ++
      ": " ++ fileSizeStr

/-- A world with three files: `a.pdf` (3 pages, 500 bytes), `b.pdf` (5 pages,
2300000 bytes) and `empty.pdf` (no page, 100 bytes). -/
def shelfWorld : World where
  stat := fun p =>
    if p = "a.pdf" then .ok 500
    else if p = "b.pdf" then .ok 2300000
    else if p = "empty.pdf" then .ok 100
    else .notExist
  fitzNew := fun p =>
    if p = "a.pdf" then .ok { handle := 1, numPage := 3 }
    else if p = "b.pdf" then .ok { handle := 2, numPage := 5 }
    else if p = "empty.pdf" then .ok { handle := 3, numPage := 0 }
    else .error "no such file"
  imageDPI := fun doc page _ =>
    if 0 ≤ page ∧ page < doc.numPage then .ok { id := page.toNat } else .error "bad page"

/-! ## ui.go: tabs

Widgets are kept only as far as the tab logic reads them: the tab container
is its item list and selected index, a `*container.TabItem` pointer is a
number, and a goroutine started with `go` is an entry of `spawned` that runs
at some later step.  Images, labels and dialogs are not part of the state. -/

/-- The fyne tab container `container.AppTabs` (external library): the items,
as the numbers standing for their pointers, and the index of the selected
item, negative when there is none. -/
structure AppTabs where
  items : List Nat
  current : Int
  deriving DecidableEq

/-- Go `container.NewAppTabs()`. -/
def NewAppTabs : AppTabs := { items := [], current := -1 }

/-- Go `AppTabs.Selected()`: the selected item, `none` for `nil`. -/
def AppTabs.Selected (t : AppTabs) : Option Nat :=
  if t.current < 0 then none else t.items[t.current.toNat]?

/-- The selected index fyne keeps when the item list is replaced: none for an
empty list, the first item when there was none, the last item when the index
is past the end. -/
def AppTabs.setItems (t : AppTabs) (items : List Nat) : AppTabs :=
  { items := items
    current :=
      if items.length = 0 then -1
      else if t.current < 0 then 0
      else if t.current ≥ items.length then (items.length : Int) - 1
      else t.current }

/-- Go `AppTabs.Append(item)`. -/
def AppTabs.Append (t : AppTabs) (item : Nat) : AppTabs :=
  t.setItems (t.items ++ [item])

/-- Go `AppTabs.Select(item)`: selects the item when it is in the container. -/
def AppTabs.Select (t : AppTabs) (item : Nat) : AppTabs :=
  if t.items.indexOf item < t.items.length then
    { t with current := (t.items.indexOf item : Int) }
  else t

/-- Go `AppTabs.Remove(item)`: the item is taken out, and the selected index
moves down by one when the removed item was before it. -/
def AppTabs.Remove (t : AppTabs) (item : Nat) : AppTabs :=
  if t.items.indexOf item < t.items.length then
    let t1 := t.setItems (t.items.eraseIdx (t.items.indexOf item))
    if (t.items.indexOf item : Int) < t1.current then { t1 with current := t1.current - 1 }
    else t1
  else t

/-- The struct `PDFTab`: its controller and its tab item. -/
structure PDFTab where
  controller : Controller
  tabItem : Nat
  deriving DecidableEq

/-- The struct `ViewerUI`: the tab container, the tabs, the language and the
translations; `nextItem` is the next unused tab item number and `spawned`
lists the goroutines `tab.loadPDF(filePath, ui)` started and not yet run, as
the tab's item and the path. -/
structure ViewerUI where
  tabContainer : AppTabs
  tabs : List PDFTab
  currentLang : Language
  tr : Translations
  nextItem : Nat
  spawned : List (Nat × String)

/-- Go `ViewerUI.getCurrentTab`. -/
def ViewerUI.getCurrentTab (ui : ViewerUI) : Option PDFTab :=
  if ui.tabs.length = 0 then none
  else
    match ui.tabContainer.Selected with
    | none => none
    | some selectedItem => ui.tabs.find? (fun tab => tab.tabItem == selectedItem)

/-- Go `NewPDFTab(ui, filePath)`: the tab, and the goroutine it starts when a
path is given. -/
def NewPDFTab (ui : ViewerUI) (filePath : String) : PDFTab × List (Nat × String) :=
  let tab : PDFTab := { controller := NewController, tabItem := ui.nextItem }
  if filePath ≠ "" then (tab, [(tab.tabItem, filePath)]) else (tab, [])

/-- Go `ViewerUI.addNewTab(filePath)`. -/
def ViewerUI.addNewTab (ui : ViewerUI) (filePath : String) : ViewerUI :=
  let (tab, started) := NewPDFTab ui filePath
  { ui with
    tabs := ui.tabs ++ [tab]
    tabContainer := (ui.tabContainer.Append tab.tabItem).Select tab.tabItem
    nextItem := ui.nextItem + 1
    spawned := ui.spawned ++ started }

/-- The tab list without the first tab that has the given item: the removal
`append(ui.tabs[:i], ui.tabs[i+1:]...)` in the loop of `closeCurrentTab`. -/
def removeTab : List PDFTab → Nat → List PDFTab
  | [], _ => []
  | tab :: rest, item => if tab.tabItem = item then rest else tab :: removeTab rest item

/-- Go `ViewerUI.closeCurrentTab`: the state afterwards and the backend calls
made. -/
def ViewerUI.closeCurrentTab (ui : ViewerUI) : ViewerUI × List Call :=
  match ui.getCurrentTab with
  | none => (ui, [])
  | some currentTab =>
    let calls :=
      match currentTab.controller.engine with
      | some e => e.Close
      | none => []
    let ui1 := { ui with
      tabs := removeTab ui.tabs currentTab.tabItem
      tabContainer := ui.tabContainer.Remove currentTab.tabItem }
    if ui1.tabs.length = 0 then (ui1.addNewTab "", calls) else (ui1, calls)

/-- Go `ViewerUI.updateStatusBar`: the text set on the status label. -/
def ViewerUI.updateStatusBar (w : World) (ui : ViewerUI) : String :=
  match ui.getCurrentTab with
  | none => ui.tr.StatusNoDocument
  | some currentTab =>
    if !currentTab.controller.HasDocument then ui.tr.StatusNoDocument
    else currentTab.controller.GetStatusText w ui.tr

/-- Go `ViewerUI.updateZoomLabel`: the text set on the zoom label. -/
def ViewerUI.updateZoomLabel (ui : ViewerUI) : String :=
  match ui.getCurrentTab with
  | none => "100%"
  | some currentTab =>
    if !currentTab.controller.HasDocument then "100%"
    else
      let zoomPercent := goInt (float64 (currentTab.controller.zoomLevel * 100))
      toString zoomPercent ++ "%"

/-- Go `PDFTab.loadPDF(filePath, ui)`: the tab afterwards and the backend calls
of `OpenPDF`. -/
def PDFTab.loadPDF (w : World) (tab : PDFTab) (filePath : String) : PDFTab × List Call :=
  ({ tab with controller := (tab.controller.OpenPDF w filePath).2.1 },
    (tab.controller.OpenPDF w filePath).2.2)

/-- The callback of `ViewerUI.onOpenFile` for a path picked in the dialog. -/
def ViewerUI.onOpenFile (ui : ViewerUI) (filePath : String) : ViewerUI :=
  match ui.getCurrentTab with
  | some currentTab =>
    if !currentTab.controller.HasDocument then
      { ui with spawned := ui.spawned ++ [(currentTab.tabItem, filePath)] }
    else ui.addNewTab filePath
  | none => ui.addNewTab filePath

/-- Go `NewViewerUI`: no tab, the English translations, a new tab container,
then the first, empty tab. -/
def NewViewerUI : ViewerUI :=
  ViewerUI.addNewTab
    { tabContainer := NewAppTabs, tabs := [], currentLang := LangEnglish,
      tr := GetTranslations LangEnglish, nextItem := 0, spawned := [] } ""

/-- The `k`-th started goroutine runs: `loadPDF` on its tab, when the tab is
still in the list. -/
def ViewerUI.goLoad (w : World) (ui : ViewerUI) (k : Nat) : ViewerUI :=
  match ui.spawned[k]? with
  | none => ui
  | some (item, filePath) =>
    { ui with
      tabs := ui.tabs.map (fun tab =>
        if tab.tabItem = item then (tab.loadPDF w filePath).1 else tab)
      spawned := ui.spawned.eraseIdx k }

/-- Go `PDFTab.onFirstPage`: the tab afterwards. -/
def PDFTab.onFirstPage (tab : PDFTab) : PDFTab :=
  { tab with controller := tab.controller.FirstPage.2 }

/-- Go `PDFTab.onPrevPage`. -/
def PDFTab.onPrevPage (tab : PDFTab) : PDFTab :=
  { tab with controller := tab.controller.PrevPage.2 }

/-- Go `PDFTab.onNextPage`. -/
def PDFTab.onNextPage (tab : PDFTab) : PDFTab :=
  { tab with controller := tab.controller.NextPage.2 }

/-- Go `PDFTab.onLastPage`. -/
def PDFTab.onLastPage (tab : PDFTab) : PDFTab :=
  { tab with controller := tab.controller.LastPage.2 }

/-- Go `PDFTab.onZoomIn`. -/
def PDFTab.onZoomIn (tab : PDFTab) : PDFTab :=
  { tab with controller := tab.controller.ZoomIn }

/-- Go `PDFTab.onZoomOut`. -/
def PDFTab.onZoomOut (tab : PDFTab) : PDFTab :=
  { tab with controller := tab.controller.ZoomOut }

/-- Go `PDFTab.onZoomReset`. -/
def PDFTab.onZoomReset (tab : PDFTab) : PDFTab :=
  { tab with controller := tab.controller.ResetZoom }

/-- Go `PDFTab.onScrollWheel(ev, ui)`, with `dy` for `ev.Scrolled.DY`. -/
def PDFTab.onScrollWheel (tab : PDFTab) (dy : ℚ) : PDFTab :=
  if !tab.controller.HasDocument then tab
  else if dy < 0 then { tab with controller := tab.controller.NextPage.2 }
  else if dy > 0 then { tab with controller := tab.controller.PrevPage.2 }
  else tab

/-- A method call on the tab with the given item: the tab is changed in
place, the other tabs are not touched. -/
def ViewerUI.onTab (ui : ViewerUI) (item : Nat) (f : PDFTab → PDFTab) : ViewerUI :=
  { ui with tabs := ui.tabs.map (fun tab => if tab.tabItem = item then f tab else tab) }

/-- The pattern `currentTab := ui.getCurrentTab(); if currentTab != nil
{ currentTab.f(ui) }` of `ViewerUI.onFirstPage`, `onPrevPage`, `onNextPage`,
`onLastPage`, `onZoomIn`, `onZoomOut`, `onZoomReset` and of the key handler. -/
def ViewerUI.onCurrentTab (ui : ViewerUI) (f : PDFTab → PDFTab) : ViewerUI :=
  match ui.getCurrentTab with
  | none => ui
  | some currentTab => ui.onTab currentTab.tabItem f

/-- Go `ViewerUI.onPageJump(text)`, with `parsed` for what `strconv.Atoi(text)`
returns, `none` when it fails. -/
def ViewerUI.onPageJump (ui : ViewerUI) (parsed : Option Int) : ViewerUI :=
  match ui.getCurrentTab with
  | none => ui
  | some currentTab =>
    match parsed with
    | none => ui
    | some pageNum =>
      ui.onTab currentTab.tabItem
        (fun tab => { tab with controller := (tab.controller.GoToPage pageNum).2 })

/-- Go `ViewerUI.openFileInCurrentTab(filePath)`. -/
def ViewerUI.openFileInCurrentTab (ui : ViewerUI) (filePath : String) : ViewerUI :=
  match ui.getCurrentTab with
  | none => ui
  | some currentTab => { ui with spawned := ui.spawned ++ [(currentTab.tabItem, filePath)] }

/-- Go `ViewerUI.switchLanguage(lang)`. -/
def ViewerUI.switchLanguage (ui : ViewerUI) (lang : Language) : ViewerUI :=
  if ui.currentLang = lang then ui
  else { ui with currentLang := lang, tr := GetTranslations lang }

/-- One step of the application: a menu, toolbar, key, wheel or tab strip
action of the user, or a started goroutine running. -/
inductive UIOp where
  | addNewTab (filePath : String)
  | closeCurrentTab
  | onOpenFile (filePath : String)
  | goLoad (k : Nat)
  | openFileInCurrentTab (filePath : String)
  | onFirstPage
  | onPrevPage
  | onNextPage
  | onLastPage
  | onPageJump (parsed : Option Int)
  | onZoomIn
  | onZoomOut
  | onZoomReset
  | onScrollWheel (item : Nat) (dy : ℚ)
  | selectTab (item : Nat)
  | switchLanguage (lang : Language)
  deriving DecidableEq

/-- The application state after one step.  `onScrollWheel item dy` is a wheel
event on the canvas of the tab with that item; `selectTab item` is a click on
a tab of the tab strip, which makes fyne select it. -/
def UIOp.apply (w : World) (ui : ViewerUI) : UIOp → ViewerUI
  | .addNewTab filePath => ui.addNewTab filePath
  | .closeCurrentTab => ui.closeCurrentTab.1
  | .onOpenFile filePath => ui.onOpenFile filePath
  | .goLoad k => ui.goLoad w k
  | .openFileInCurrentTab filePath => ui.openFileInCurrentTab filePath
  | .onFirstPage => ui.onCurrentTab PDFTab.onFirstPage
  | .onPrevPage => ui.onCurrentTab PDFTab.onPrevPage
  | .onNextPage => ui.onCurrentTab PDFTab.onNextPage
  | .onLastPage => ui.onCurrentTab PDFTab.onLastPage
  | .onPageJump parsed => ui.onPageJump parsed
  | .onZoomIn => ui.onCurrentTab PDFTab.onZoomIn
  | .onZoomOut => ui.onCurrentTab PDFTab.onZoomOut
  | .onZoomReset => ui.onCurrentTab PDFTab.onZoomReset
  | .onScrollWheel item dy => ui.onTab item (fun tab => tab.onScrollWheel dy)
  | .selectTab item => { ui with tabContainer := ui.tabContainer.Select item }
  | .switchLanguage lang => ui.switchLanguage lang

/-- The application state after a sequence of steps, from `NewViewerUI`. -/
def runUI (w : World) (ops : List UIOp) : ViewerUI :=
  ops.foldl (UIOp.apply w) NewViewerUI

/-- A controller showing page `p` of `a.pdf` of `shelfWorld` at zoom `z`. -/
def shelfController (p : Int) (z : ℚ) : Controller :=
  { engine := some { filePath := "a.pdf", document := { handle := 1, numPage := 3 },
                     pageCount := 3 },
    currentPage := p, zoomLevel := z, baseDPI := 150 }

/-- Whether every character of a string is ASCII. -/
def allASCII (s : String) : Bool := s.toList.all (fun ch => ch.toNat < 128)

/-- Tab items stand for distinct pointers: no two tabs share an item, and
every item in use is below the next unused number. -/
def ViewerUI.itemsFresh (ui : ViewerUI) : Prop :=
  (ui.tabs.map PDFTab.tabItem).Nodup ∧ ∀ tab ∈ ui.tabs, tab.tabItem < ui.nextItem

/-! ## Lemmas on single calls -/

theorem openPDF_cases (w : World) (c : Controller) (filePath : String) :
    ((c.OpenPDF w filePath).1 ≠ none ∧ (c.OpenPDF w filePath).2.1 = c) ∨
    ((c.OpenPDF w filePath).1 = none ∧ ∃ e : PDFEngine,
      (c.OpenPDF w filePath).2.1 =
        { c with engine := some e, currentPage := 1, zoomLevel := 1.0 }) := by
  unfold Controller.OpenPDF
  rcases h : NewPDFEngine w filePath with ⟨r, calls⟩
  cases r with
  | error err => left; simp
  | ok e => right; exact ⟨rfl, e, rfl⟩

theorem nav_engine (w : World) (c : Controller) (op : Op) (h : op.isNav = true) :
    (op.apply w c).engine = c.engine := by
  obtain ⟨eng, p, z, d⟩ := c
  cases op <;> simp [Op.isNav] at h <;> cases eng <;>
    simp only [Op.apply, Controller.NextPage, Controller.PrevPage, Controller.FirstPage,
      Controller.LastPage, Controller.GoToPage] <;>
    (try split) <;> rfl

theorem nav_page_bounds (w : World) (c : Controller) (op : Op) (e : PDFEngine)
    (h : op.isNav = true) (he : c.engine = some e)
    (h1 : 1 ≤ c.currentPage) (h2 : c.currentPage ≤ e.pageCount) :
    1 ≤ (op.apply w c).currentPage ∧ (op.apply w c).currentPage ≤ e.pageCount := by
  cases op <;> simp [Op.isNav] at h <;>
    simp only [Op.apply, Controller.NextPage, Controller.PrevPage, Controller.FirstPage,
      Controller.LastPage, Controller.GoToPage, PDFEngine.GetPageCount, he] <;>
    split <;> simp_all <;> omega

theorem run_nav_bounds (w : World) (ops : List Op) (c : Controller) (e : PDFEngine)
    (hnav : ∀ op ∈ ops, op.isNav = true) (he : c.engine = some e)
    (h1 : 1 ≤ c.currentPage) (h2 : c.currentPage ≤ e.pageCount) :
    (run w c ops).engine = some e ∧
      1 ≤ (run w c ops).currentPage ∧ (run w c ops).currentPage ≤ e.pageCount := by
  induction ops generalizing c with
  | nil => exact ⟨he, h1, h2⟩
  | cons op rest ih =>
    have hop : op.isNav = true := hnav op (List.mem_cons_self _ _)
    have hb := nav_page_bounds w c op e hop he h1 h2
    have he1 : (op.apply w c).engine = some e := by rw [nav_engine w c op hop, he]
    exact ih (op.apply w c) (fun o ho => hnav o (List.mem_cons_of_mem _ ho)) he1 hb.1 hb.2

theorem nav_zoom (w : World) (c : Controller) (op : Op) (h : op.isNav = true) :
    (op.apply w c).zoomLevel = c.zoomLevel := by
  obtain ⟨eng, p, z, d⟩ := c
  cases op <;> simp [Op.isNav] at h <;> cases eng <;>
    simp only [Op.apply, Controller.NextPage, Controller.PrevPage, Controller.FirstPage,
      Controller.LastPage, Controller.GoToPage] <;>
    (try split) <;> rfl

theorem op_zoom_bounds (w : World) (c : Controller) (op : Op)
    (h1 : 0.5 ≤ c.zoomLevel) (h2 : c.zoomLevel ≤ 3.0) :
    0.5 ≤ (op.apply w c).zoomLevel ∧ (op.apply w c).zoomLevel ≤ 3.0 := by
  cases op with
  | nextPage => rw [nav_zoom w c .nextPage rfl]; exact ⟨h1, h2⟩
  | prevPage => rw [nav_zoom w c .prevPage rfl]; exact ⟨h1, h2⟩
  | firstPage => rw [nav_zoom w c .firstPage rfl]; exact ⟨h1, h2⟩
  | lastPage => rw [nav_zoom w c .lastPage rfl]; exact ⟨h1, h2⟩
  | goToPage n => rw [nav_zoom w c (.goToPage n) rfl]; exact ⟨h1, h2⟩
  | openPDF filePath =>
    rcases openPDF_cases w c filePath with ⟨_, hc⟩ | ⟨_, e, hc⟩
    · simp only [Op.apply, hc]; exact ⟨h1, h2⟩
    · simp only [Op.apply, hc]; norm_num
  | setZoom z =>
    simp only [Op.apply, Controller.SetZoom]
    split_ifs with ha hb
    · norm_num
    · norm_num
    · exact ⟨not_lt.mp ha, not_lt.mp hb⟩
  | zoomIn =>
    simp only [Op.apply, Controller.ZoomIn]
    split_ifs with ha
    · norm_num
    · refine ⟨?_, not_lt.mp ha⟩
      norm_num at h1 ⊢
      linarith
  | zoomOut =>
    simp only [Op.apply, Controller.ZoomOut]
    split_ifs with ha
    · norm_num
    · refine ⟨not_lt.mp ha, ?_⟩
      norm_num at h2 ⊢
      rw [div_le_iff₀ (by norm_num)]
      linarith
  | resetZoom =>
    simp only [Op.apply, Controller.ResetZoom]; norm_num

theorem run_zoom_bounds (w : World) (ops : List Op) (c : Controller)
    (h1 : 0.5 ≤ c.zoomLevel) (h2 : c.zoomLevel ≤ 3.0) :
    0.5 ≤ (run w c ops).zoomLevel ∧ (run w c ops).zoomLevel ≤ 3.0 := by
  induction ops generalizing c with
  | nil => exact ⟨h1, h2⟩
  | cons op rest ih =>
    obtain ⟨g1, g2⟩ := op_zoom_bounds w c op h1 h2
    exact ih (op.apply w c) g1 g2

theorem op_baseDPI (w : World) (c : Controller) (op : Op) :
    (op.apply w c).baseDPI = c.baseDPI := by
  cases op with
  | openPDF filePath =>
    rcases openPDF_cases w c filePath with ⟨_, hc⟩ | ⟨_, e, hc⟩ <;>
      simp only [Op.apply, hc]
  | nextPage => simp only [Op.apply, Controller.NextPage]; split <;> (try split) <;> rfl
  | prevPage => simp only [Op.apply, Controller.PrevPage]; split <;> (try split) <;> rfl
  | firstPage => simp only [Op.apply, Controller.FirstPage]; split <;> (try split) <;> rfl
  | lastPage => simp only [Op.apply, Controller.LastPage]; split <;> (try split) <;> rfl
  | goToPage n => simp only [Op.apply, Controller.GoToPage]; split <;> (try split) <;> rfl
  | setZoom z => rfl
  | zoomIn => rfl
  | zoomOut => rfl
  | resetZoom => rfl

theorem run_baseDPI (w : World) (ops : List Op) (c : Controller) :
    (run w c ops).baseDPI = c.baseDPI := by
  induction ops generalizing c with
  | nil => rfl
  | cons op rest ih => exact (ih (op.apply w c)).trans (op_baseDPI w c op)

theorem goInt_eq_floor (q : ℚ) (h : 0 ≤ q) : goInt q = ⌊q⌋ := by
  unfold goInt
  rw [Rat.floor_def, Int.tdiv_eq_ediv (Rat.num_nonneg.mpr h) (Int.natCast_nonneg _)]

theorem roundHalfEven_abs (q : ℚ) : |q - (roundHalfEven q : ℚ)| ≤ 1 / 2 := by
  have h1 : ((⌊q⌋ : Int) : ℚ) ≤ q := Int.floor_le q
  have h2 : q < ((⌊q⌋ : Int) : ℚ) + 1 := Int.lt_floor_add_one q
  unfold roundHalfEven
  simp only
  rw [abs_le]
  split_ifs with ha hb hc
  · constructor <;> linarith
  · push_cast; constructor <;> linarith
  · have he : q - ((⌊q⌋ : Int) : ℚ) = 1 / 2 := le_antisymm (not_lt.mp hb) (not_lt.mp ha)
    constructor <;> linarith
  · have he : q - ((⌊q⌋ : Int) : ℚ) = 1 / 2 := le_antisymm (not_lt.mp hb) (not_lt.mp ha)
    push_cast; constructor <;> linarith

theorem roundHalfEven_nonneg (q : ℚ) (h : 0 ≤ q) : 0 ≤ roundHalfEven q := by
  have h0 : (0 : Int) ≤ ⌊q⌋ := Int.floor_nonneg.mpr h
  unfold roundHalfEven
  simp only
  split_ifs <;> omega

theorem roundHalfEven_of_lt (q : ℚ) (f : Int) (h1 : (f : ℚ) ≤ q) (h2 : q < f + 1 / 2) :
    roundHalfEven q = f := by
  have hf : ⌊q⌋ = f := by
    rw [Int.floor_eq_iff]; constructor <;> linarith
  unfold roundHalfEven
  simp only [hf]
  rw [if_pos (by linarith)]

theorem roundHalfEven_of_gt (q : ℚ) (f : Int) (h1 : (f : ℚ) + 1 / 2 < q) (h2 : q < f + 1) :
    roundHalfEven q = f + 1 := by
  have hf : ⌊q⌋ = f := by
    rw [Int.floor_eq_iff]; constructor <;> linarith
  unfold roundHalfEven
  simp only [hf]
  rw [if_neg (by linarith), if_pos (by linarith)]

theorem roundHalfEven_intCast (m : Int) : roundHalfEven (m : ℚ) = m := by
  unfold roundHalfEven
  simp

theorem roundHalfEven_ge (q : ℚ) (k : Int) (h : (k : ℚ) ≤ q) : k ≤ roundHalfEven q := by
  have hk : k ≤ ⌊q⌋ := Int.le_floor.mpr h
  unfold roundHalfEven
  simp only
  split_ifs <;> omega

theorem roundHalfEven_le (q : ℚ) (k : Int) (h : q ≤ (k : ℚ)) : roundHalfEven q ≤ k := by
  by_cases hq : q = (k : ℚ)
  · rw [hq, roundHalfEven_intCast]
  · have hlt : q < (k : ℚ) := lt_of_le_of_ne h hq
    have hfl2 : ⌊q⌋ < k := Int.floor_lt.mpr hlt
    unfold roundHalfEven
    simp only
    split_ifs <;> omega

/-! ## Rounding to float64 -/

theorem float64_exp_le (x : ℚ) (n : Int) (h0 : 0 < x) (h : x < 2 ^ n) :
    Int.log 2 |x| - 52 ≤ n - 53 := by
  rw [abs_of_pos h0]
  have := (Int.lt_zpow_iff_log_lt (b := 2) (by norm_num) h0).mp (by exact_mod_cast h)
  omega

theorem float64_exp_ge (x : ℚ) (n : Int) (h0 : 0 < x) (h : 2 ^ n ≤ x) :
    n - 52 ≤ Int.log 2 |x| - 52 := by
  rw [abs_of_pos h0]
  have := (Int.zpow_le_iff_le_log (b := 2) (by norm_num) h0).mp (by exact_mod_cast h)
  omega

/-- A positive `x` below `2 ^ (53 - k)` with `x * 2 ^ k` an integer is a
float64: rounding leaves it as it is. -/
theorem float64_dyadic (x : ℚ) (k : Nat) (m : Int) (h0 : 0 < x)
    (h : x < 2 ^ (53 - (k : Int))) (hm : x * 2 ^ k = m) : float64 x = x := by
  have he := float64_exp_le x _ h0 h
  unfold float64
  rw [if_neg (ne_of_gt h0)]
  generalize Int.log 2 |x| - 52 = e at he ⊢
  obtain ⟨j, hj⟩ : ∃ j : Nat, e = -((k : Int) + j) := ⟨(-(k : Int) - e).toNat, by omega⟩
  subst hj
  have h2 : (2 : ℚ) ≠ 0 := by norm_num
  have hdiv : x / 2 ^ (-((k : Int) + j)) = ((m * 2 ^ j : Int) : ℚ) := by
    rw [zpow_neg, div_inv_eq_mul, zpow_add₀ h2]
    push_cast
    rw [← hm]
    simp only [zpow_natCast]
    ring
  rw [hdiv, roundHalfEven_intCast, ← hdiv]
  field_simp

/-- Rounding to float64 stays between the neighbouring integers, for
`1 ≤ x < 2 ^ 53`. -/
theorem float64_between (x : ℚ) (h1 : 1 ≤ x) (h : x < 2 ^ (53 : Int)) :
    ((⌊x⌋ : Int) : ℚ) ≤ float64 x ∧ float64 x ≤ ((⌊x⌋ : Int) : ℚ) + 1 := by
  have h0 : 0 < x := by linarith
  have he := float64_exp_le x _ h0 h
  unfold float64
  rw [if_neg (ne_of_gt h0)]
  generalize Int.log 2 |x| - 52 = e at he ⊢
  obtain ⟨j, hj⟩ : ∃ j : Nat, e = -(j : Int) := ⟨(-e).toNat, by omega⟩
  subst hj
  have hpos : (0 : ℚ) < 2 ^ (-(j : Int)) := by positivity
  have hinv : (2 : ℚ) ^ (-(j : Int)) * 2 ^ j = 1 := by
    rw [zpow_neg, zpow_natCast]; field_simp
  have hdiv : ∀ y : ℚ, y / 2 ^ (-(j : Int)) = y * 2 ^ j := by
    intro y; rw [zpow_neg, div_inv_eq_mul, zpow_natCast]
  have hlo : ((⌊x⌋ * 2 ^ j : Int) : ℚ) ≤ x / 2 ^ (-(j : Int)) := by
    rw [hdiv]; push_cast
    exact mul_le_mul_of_nonneg_right (Int.floor_le x) (by positivity)
  have hhi : x / 2 ^ (-(j : Int)) ≤ (((⌊x⌋ + 1) * 2 ^ j : Int) : ℚ) := by
    rw [hdiv]; push_cast
    exact mul_le_mul_of_nonneg_right (le_of_lt (Int.lt_floor_add_one x)) (by positivity)
  have r1 := roundHalfEven_ge _ _ hlo
  have r2 := roundHalfEven_le _ _ hhi
  have q1 : ((⌊x⌋ * 2 ^ j : Int) : ℚ) ≤ (roundHalfEven (x / 2 ^ (-(j : Int))) : ℚ) := by
    exact_mod_cast r1
  have q2 : (roundHalfEven (x / 2 ^ (-(j : Int))) : ℚ) ≤ (((⌊x⌋ + 1) * 2 ^ j : Int) : ℚ) := by
    exact_mod_cast r2
  constructor
  · calc ((⌊x⌋ : Int) : ℚ) = ((⌊x⌋ * 2 ^ j : Int) : ℚ) * 2 ^ (-(j : Int)) := by
          push_cast; rw [mul_assoc, mul_comm ((2 : ℚ) ^ j), hinv, mul_one]
      _ ≤ _ := mul_le_mul_of_nonneg_right q1 (le_of_lt hpos)
  · calc (roundHalfEven (x / 2 ^ (-(j : Int))) : ℚ) * 2 ^ (-(j : Int))
          ≤ (((⌊x⌋ + 1) * 2 ^ j : Int) : ℚ) * 2 ^ (-(j : Int)) :=
            mul_le_mul_of_nonneg_right q2 (le_of_lt hpos)
      _ = ((⌊x⌋ : Int) : ℚ) + 1 := by
          push_cast; rw [mul_assoc, mul_comm ((2 : ℚ) ^ j), hinv, mul_one]

/-- The rounding error is at most half the weight of the last mantissa bit. -/
theorem float64_error (x : ℚ) (n : Int) (h0 : 0 < x) (h : x < 2 ^ n) :
    |float64 x - x| ≤ 2 ^ (n - 54) := by
  have he := float64_exp_le x n h0 h
  unfold float64
  rw [if_neg (ne_of_gt h0)]
  generalize Int.log 2 |x| - 52 = e at he ⊢
  have hpos : (0 : ℚ) < 2 ^ e := by positivity
  have hr := roundHalfEven_abs (x / 2 ^ e)
  have hx : x / 2 ^ e * 2 ^ e = x := by field_simp
  have heq : (roundHalfEven (x / 2 ^ e) : ℚ) * 2 ^ e - x =
      -((x / 2 ^ e - (roundHalfEven (x / 2 ^ e) : ℚ)) * 2 ^ e) := by
    have : (x / 2 ^ e - (roundHalfEven (x / 2 ^ e) : ℚ)) * 2 ^ e =
        x - (roundHalfEven (x / 2 ^ e) : ℚ) * 2 ^ e := by
      rw [sub_mul, hx]
    rw [this]; ring
  rw [heq, abs_neg, abs_mul, abs_of_pos hpos]
  have hhalf : (1 / 2 : ℚ) * 2 ^ e = 2 ^ (e - 1) := by
    rw [zpow_sub₀ (by norm_num : (2 : ℚ) ≠ 0), zpow_one]; ring
  calc |x / 2 ^ e - (roundHalfEven (x / 2 ^ e) : ℚ)| * 2 ^ e
      ≤ 1 / 2 * 2 ^ e := mul_le_mul_of_nonneg_right hr (le_of_lt hpos)
    _ = 2 ^ (e - 1) := hhalf
    _ ≤ 2 ^ (n - 54) := zpow_le_zpow_right₀ (by norm_num) (by omega)

/-- The value of `float64 x` from the binade of `x` and the nearest mantissa. -/
theorem float64_eq_of (x : ℚ) (l m : Int) (h1 : 2 ^ l ≤ x) (h2 : x < 2 ^ (l + 1))
    (hm1 : (m : ℚ) - 1 / 2 < x / 2 ^ (l - 52)) (hm2 : x / 2 ^ (l - 52) < (m : ℚ) + 1 / 2) :
    float64 x = (m : ℚ) * 2 ^ (l - 52) := by
  have h0 : 0 < x := lt_of_lt_of_le (by positivity) h1
  have e1 := float64_exp_le x _ h0 h2
  have e2 := float64_exp_ge x _ h0 h1
  have he : Int.log 2 |x| - 52 = l - 52 := by omega
  unfold float64
  rw [if_neg (ne_of_gt h0), he]
  have hr : roundHalfEven (x / 2 ^ (l - 52)) = m := by
    have hb := roundHalfEven_abs (x / 2 ^ (l - 52))
    rw [abs_le] at hb
    have hlt : ((roundHalfEven (x / 2 ^ (l - 52)) : Int) : ℚ) < (m : ℚ) + 1 := by
      linarith [hb.1]
    have hgt : (m : ℚ) - 1 < ((roundHalfEven (x / 2 ^ (l - 52)) : Int) : ℚ) := by
      linarith [hb.2]
    have a1 : roundHalfEven (x / 2 ^ (l - 52)) < m + 1 := by exact_mod_cast hlt
    have a2 : m - 1 < roundHalfEven (x / 2 ^ (l - 52)) := by exact_mod_cast hgt
    omega
  rw [hr]

/-- The conversion `int` of the float64 nearest to `x`, for `1 ≤ x < 2 ^ n`
with `n ≤ 53`: the integer part of `float64 x`, which is the integer part of
`x` or the next integer, within `2 ^ (n - 54)` of `x` before truncation, and
`x` itself when `x` is an integer. -/
theorem goInt_float64 (x : ℚ) (n : Int) (h1 : 1 ≤ x) (h : x < 2 ^ n) (hn : n ≤ 53) :
    goInt (float64 x) = ⌊float64 x⌋ ∧
      ⌊x⌋ ≤ ⌊float64 x⌋ ∧ ⌊float64 x⌋ ≤ ⌊x⌋ + 1 ∧
      |float64 x - x| ≤ 2 ^ (n - 54) ∧
      (∀ k : Int, (k : ℚ) = x → ⌊float64 x⌋ = k) := by
  have h0 : 0 < x := by linarith
  have h53 : x < 2 ^ (53 : Int) :=
    lt_of_lt_of_le h (zpow_le_zpow_right₀ (by norm_num) hn)
  obtain ⟨b1, b2⟩ := float64_between x h1 h53
  have hfl0 : (0 : Int) ≤ ⌊x⌋ := Int.floor_nonneg.mpr (le_of_lt h0)
  have hnn : (0 : ℚ) ≤ float64 x :=
    le_trans (by exact_mod_cast hfl0) b1
  refine ⟨goInt_eq_floor _ hnn, Int.le_floor.mpr b1, ?_, float64_error x n h0 h, ?_⟩
  · have : float64 x ≤ ((⌊x⌋ + 1 : Int) : ℚ) := by push_cast; exact b2
    exact (Int.floor_le_floor this).trans_eq (Int.floor_intCast _)
  · intro k hk
    have hd : float64 x = x :=
      float64_dyadic x 0 k h0 (by simpa using h53) (by rw [← hk]; simp)
    rw [hd, ← hk]
    exact Int.floor_intCast k

/-! ## Page navigation -/

/-- C1: page-range invariant.  After a successful `OpenPDF` of a document
with at least one page the current page is 1, and after any finite sequence of
`NextPage`, `PrevPage`, `FirstPage`, `LastPage` and `GoToPage(n)` calls, with
arbitrary `n`, the page count is the same and the current page is at least 1
and at most the page count. -/
theorem page_range_invariant (w : World) (c₀ c : Controller) (filePath : String)
    (calls : List Call) (ops : List Op)
    (hopen : c₀.OpenPDF w filePath = (none, c, calls))
    (hP : 1 ≤ c.GetPageCount)
    (hnav : ∀ op ∈ ops, op.isNav = true) :
    c.currentPage = 1 ∧
      (run w c ops).GetPageCount = c.GetPageCount ∧
      1 ≤ (run w c ops).currentPage ∧
      (run w c ops).currentPage ≤ c.GetPageCount := by
  rcases openPDF_cases w c₀ filePath with ⟨hne, _⟩ | ⟨_, e, hc⟩
  · rw [hopen] at hne; exact absurd rfl hne
  · rw [hopen] at hc
    simp only at hc
    subst hc
    have hP1 : 1 ≤ e.pageCount := by
      simpa [Controller.GetPageCount, PDFEngine.GetPageCount] using hP
    obtain ⟨he, h1, h2⟩ := run_nav_bounds w ops
      { c₀ with engine := some e, currentPage := 1, zoomLevel := 1.0 } e hnav rfl
      (le_refl 1) hP1
    refine ⟨rfl, ?_, h1, ?_⟩
    · simp only [Controller.GetPageCount, he]
    · simpa [Controller.GetPageCount, PDFEngine.GetPageCount] using h2

/-- Witness for C1: the ten-page file of `demoWorld`, then `LastPage`,
`NextPage`, `GoToPage(0)`, `GoToPage(11)`, `GoToPage(4)`, `PrevPage`,
`FirstPage`, `PrevPage`. -/
theorem page_range_invariant_witness :
    NewController.OpenPDF demoWorld "doc.pdf" =
        (none, demoController 1 1.0, [Call.stat "doc.pdf", Call.fitzNew "doc.pdf"]) ∧
      1 ≤ (run demoWorld (demoController 1 1.0)
          [.lastPage, .nextPage, .goToPage 0, .goToPage 11, .goToPage 4, .prevPage,
            .firstPage, .prevPage]).currentPage ∧
      (run demoWorld (demoController 1 1.0)
          [.lastPage, .nextPage, .goToPage 0, .goToPage 11, .goToPage 4, .prevPage,
            .firstPage, .prevPage]).currentPage ≤ 10 := by
  have hopen : NewController.OpenPDF demoWorld "doc.pdf" =
      (none, demoController 1 1.0, [Call.stat "doc.pdf", Call.fitzNew "doc.pdf"]) := by
    simp [Controller.OpenPDF, NewPDFEngine, demoWorld, NewController, demoController,
      demoEngine]
  have h := page_range_invariant demoWorld NewController (demoController 1 1.0) "doc.pdf"
    [Call.stat "doc.pdf", Call.fitzNew "doc.pdf"]
    [.lastPage, .nextPage, .goToPage 0, .goToPage 11, .goToPage 4, .prevPage,
      .firstPage, .prevPage] hopen
    (by simp [Controller.GetPageCount, PDFEngine.GetPageCount, demoController, demoEngine])
    (by simp [Op.isNav])
  exact ⟨hopen, h.2.2.1, by
    simpa [Controller.GetPageCount, PDFEngine.GetPageCount, demoController, demoEngine]
      using h.2.2.2⟩

/-! ## Zoom -/

/-- C2: zoom-bounds invariant.  Starting from a new controller, after any
finite sequence of calls (`SetZoom(z)` with arbitrary `z`, `ZoomIn`, `ZoomOut`,
`ResetZoom`, `OpenPDF` whether it succeeds or fails, and the page navigation
calls) the zoom factor is at least 0.5 and at most 3.0. -/
theorem zoom_bounds_invariant (w : World) (ops : List Op) :
    0.5 ≤ (run w NewController ops).zoomLevel ∧
      (run w NewController ops).zoomLevel ≤ 3.0 := by
  exact run_zoom_bounds w ops NewController (by norm_num [NewController])
    (by norm_num [NewController])

/-! ## Single calls with a document open -/

/-- C3: with a document of `P` pages open, `GoToPage(n)` returns an error
exactly when `n < 1` or `n > P`; when it succeeds the current page is `n` and
nothing else changes; when it fails the controller, and so its current page
and zoom factor, is unchanged. -/
theorem goToPage_spec (c : Controller) (e : PDFEngine) (n : Int)
    (he : c.engine = some e) :
    ((c.GoToPage n).1 ≠ none ↔ (n < 1 ∨ n > c.GetPageCount)) ∧
      ((c.GoToPage n).1 = none →
        (c.GoToPage n).2 = { c with currentPage := n }) ∧
      ((c.GoToPage n).1 ≠ none →
        (c.GoToPage n).2.currentPage = c.currentPage ∧
          (c.GoToPage n).2.zoomLevel = c.zoomLevel ∧ (c.GoToPage n).2 = c) := by
  simp only [Controller.GoToPage, Controller.GetPageCount, he]
  split_ifs with h
  · simp [h]
  · simp [h]

/-- Witness for C3: page 7 of a ten-page document, from page 1. -/
theorem goToPage_spec_witness :
    ((demoController 1 1.0).GoToPage 7).1 = none ∧
      ((demoController 1 1.0).GoToPage 7).2 = demoController 7 1.0 := by
  have h0 : ((demoController 1 1.0).GoToPage 7).1 = none := by
    simp [Controller.GoToPage, PDFEngine.GetPageCount, demoController, demoEngine]
  exact ⟨h0, (goToPage_spec (demoController 1 1.0) demoEngine 7 rfl).2.1 h0⟩

/-- C4: with a document of `P` pages open and the current page `p` in
`[1, P]` (so that `P ≥ 1`), `NextPage` leaves the page at `min (p+1) P`, `PrevPage` at
`max (p-1) 1`, `FirstPage` at 1 and `LastPage` at `P`; each returns true
exactly when the page after the call differs from `p`; `NextPage` at `p = P`
and `PrevPage` at `p = 1` return false and leave the controller unchanged. -/
theorem step_calls_spec (c : Controller) (e : PDFEngine)
    (he : c.engine = some e)
    (h1 : 1 ≤ c.currentPage) (h2 : c.currentPage ≤ c.GetPageCount) :
    (c.NextPage.2.currentPage = min (c.currentPage + 1) c.GetPageCount ∧
        (c.NextPage.1 = true ↔ c.NextPage.2.currentPage ≠ c.currentPage)) ∧
      (c.PrevPage.2.currentPage = max (c.currentPage - 1) 1 ∧
        (c.PrevPage.1 = true ↔ c.PrevPage.2.currentPage ≠ c.currentPage)) ∧
      (c.FirstPage.2.currentPage = 1 ∧
        (c.FirstPage.1 = true ↔ c.FirstPage.2.currentPage ≠ c.currentPage)) ∧
      (c.LastPage.2.currentPage = c.GetPageCount ∧
        (c.LastPage.1 = true ↔ c.LastPage.2.currentPage ≠ c.currentPage)) ∧
      (c.currentPage = c.GetPageCount → c.NextPage = (false, c)) ∧
      (c.currentPage = 1 → c.PrevPage = (false, c)) := by
  simp only [Controller.GetPageCount, PDFEngine.GetPageCount, he] at h2 ⊢
  simp only [Controller.NextPage, Controller.PrevPage, Controller.FirstPage,
    Controller.LastPage, PDFEngine.GetPageCount, he]
  refine ⟨?_, ?_, ?_, ?_, ?_, ?_⟩
  · split_ifs with h
    · simp; omega
    · simp; omega
  · split_ifs with h
    · simp; omega
    · simp; omega
  · split_ifs with h
    · simp; exact fun hq => h hq.symm
    · simp; exact not_not.mp h
  · split_ifs with h
    · simp; exact fun hq => h hq.symm
    · simp; exact not_not.mp h
  · intro h; simp [h]
  · intro h; simp [h]

/-- Witness for C4: the ten-page scenario.  `LastPage` from page 1 gives page
10, and `NextPage` at page 10 returns false and the page stays 10. -/
theorem step_calls_spec_witness :
    (demoController 1 1.0).LastPage.2.currentPage = 10 ∧
      (demoController 10 1.0).NextPage = (false, demoController 10 1.0) :=
  ⟨(step_calls_spec (demoController 1 1.0) demoEngine rfl (by decide)
      (by decide)).2.2.2.1.1,
    (step_calls_spec (demoController 10 1.0) demoEngine rfl (by decide)
      (by decide)).2.2.2.2.1 rfl⟩

/-! ## Opening a file -/

/-- C5: whenever `OpenPDF` succeeds, afterwards the controller has a document
(the engine built for the path), the current page is 1 and the zoom factor is
1.0, whatever the controller held before. -/
theorem openPDF_success_resets (w : World) (c : Controller) (filePath : String)
    (h : (c.OpenPDF w filePath).1 = none) :
    (c.OpenPDF w filePath).2.1.HasDocument = true ∧
      (c.OpenPDF w filePath).2.1.currentPage = 1 ∧
      (c.OpenPDF w filePath).2.1.zoomLevel = 1.0 ∧
      ∃ e, (NewPDFEngine w filePath).1 = .ok e ∧
        (c.OpenPDF w filePath).2.1.engine = some e := by
  unfold Controller.OpenPDF at h ⊢
  rcases hn : NewPDFEngine w filePath with ⟨r, calls⟩
  rw [hn] at h
  cases r with
  | error err => simp at h
  | ok e => exact ⟨rfl, rfl, rfl, e, rfl, rfl⟩

/-- Witness for C5: `doc.pdf` opened on a controller that showed page 7 of a
document at zoom 2.5. -/
theorem openPDF_success_resets_witness :
    ((demoController 7 2.5).OpenPDF demoWorld "doc.pdf").1 = none ∧
      ((demoController 7 2.5).OpenPDF demoWorld "doc.pdf").2.1.currentPage = 1 ∧
      ((demoController 7 2.5).OpenPDF demoWorld "doc.pdf").2.1.zoomLevel = 1.0 := by
  have h0 : ((demoController 7 2.5).OpenPDF demoWorld "doc.pdf").1 = none := by
    simp [Controller.OpenPDF, NewPDFEngine, demoWorld]
  have h := openPDF_success_resets demoWorld (demoController 7 2.5) "doc.pdf" h0
  exact ⟨h0, h.2.1, h.2.2.1⟩

/-- C6: atomicity of a failed open.  `OpenPDF` returns an error exactly when
`os.Stat` reports that the path does not exist or `fitz.New` fails; whenever it
returns an error the controller (document reference, current page, zoom
factor) is exactly what it was before; and when there was no document before,
`HasDocument` is still false and `RenderCurrentPage` returns the "no document"
error without calling the backend. -/
theorem openPDF_failure_atomic (w : World) (c : Controller) (filePath : String)
    (h : (c.OpenPDF w filePath).1 ≠ none) :
    (w.stat filePath = .notExist ∨ ∃ cause, w.fitzNew filePath = .error cause) ∧
      (c.OpenPDF w filePath).2.1.engine = c.engine ∧
      (c.OpenPDF w filePath).2.1.currentPage = c.currentPage ∧
      (c.OpenPDF w filePath).2.1.zoomLevel = c.zoomLevel ∧
      (c.OpenPDF w filePath).2.1 = c ∧
      (c.engine = none →
        (c.OpenPDF w filePath).2.1.HasDocument = false ∧
          (c.OpenPDF w filePath).2.1.RenderCurrentPage w = (.error .noDocument, [])) := by
  have hc : (c.OpenPDF w filePath).2.1 = c := by
    rcases openPDF_cases w c filePath with ⟨_, hc⟩ | ⟨h0, _⟩
    · exact hc
    · exact absurd h0 h
  refine ⟨?_, by rw [hc], by rw [hc], by rw [hc], hc, ?_⟩
  · unfold Controller.OpenPDF NewPDFEngine at h
    cases hs : w.stat filePath with
    | notExist => exact Or.inl rfl
    | ok size =>
      right
      rw [hs] at h
      cases hf : w.fitzNew filePath with
      | error cause => exact ⟨cause, rfl⟩
      | ok doc => rw [hf] at h; simp at h
    | otherError =>
      right
      rw [hs] at h
      cases hf : w.fitzNew filePath with
      | error cause => exact ⟨cause, rfl⟩
      | ok doc => rw [hf] at h; simp at h
  · intro he
    rw [hc]
    simp [Controller.HasDocument, Controller.RenderCurrentPage, he]

/-- Witness for C6: `missing.pdf`, which does not exist in `demoWorld`, opened
on a new controller. -/
theorem openPDF_failure_atomic_witness :
    (NewController.OpenPDF demoWorld "missing.pdf").1 = some (.fileNotExist "missing.pdf") ∧
      (NewController.OpenPDF demoWorld "missing.pdf").2.1 = NewController ∧
      (NewController.OpenPDF demoWorld "missing.pdf").2.1.HasDocument = false ∧
      (NewController.OpenPDF demoWorld "missing.pdf").2.1.RenderCurrentPage demoWorld =
        (.error .noDocument, []) := by
  have h0 : (NewController.OpenPDF demoWorld "missing.pdf").1 =
      some (.fileNotExist "missing.pdf") := by
    simp [Controller.OpenPDF, NewPDFEngine, demoWorld]
  have h := openPDF_failure_atomic demoWorld NewController "missing.pdf"
    (by rw [h0]; simp)
  exact ⟨h0, h.2.2.2.2.1, (h.2.2.2.2.2 rfl).1, (h.2.2.2.2.2 rfl).2⟩

/-! ## Calls without a document -/

/-- C7: on a controller with no open document, `NextPage`, `PrevPage`,
`FirstPage` and `LastPage` return false, `GoToPage(n)` returns the "no
document" error for every `n`, `RenderCurrentPage` returns that error and makes
no call to the backend, `GetPageCount` returns 0, and each of these calls
leaves the controller, and so the current page and the zoom factor,
unchanged. -/
theorem no_document_calls (w : World) (c : Controller) (h : c.engine = none) :
    c.NextPage = (false, c) ∧ c.PrevPage = (false, c) ∧
      c.FirstPage = (false, c) ∧ c.LastPage = (false, c) ∧
      (∀ n : Int, c.GoToPage n = (some .noDocument, c)) ∧
      c.RenderCurrentPage w = (.error .noDocument, []) ∧
      c.GetPageCount = 0 := by
  simp [Controller.NextPage, Controller.PrevPage, Controller.FirstPage, Controller.LastPage,
    Controller.GoToPage, Controller.RenderCurrentPage, Controller.GetPageCount, h]

/-- Witness for C7: a new controller. -/
theorem no_document_calls_witness :
    NewController.engine = none ∧ NewController.NextPage = (false, NewController) ∧
      NewController.GoToPage 1 = (some .noDocument, NewController) ∧
      NewController.GetPageCount = 0 :=
  ⟨rfl, (no_document_calls demoWorld NewController rfl).1,
    (no_document_calls demoWorld NewController rfl).2.2.2.2.1 1,
    (no_document_calls demoWorld NewController rfl).2.2.2.2.2.2⟩

/-! ## Zoom calls -/

/-- C8: `SetZoom(z)` returns no error and sets the zoom factor to
`max 0.5 (min 3.0 z)` for every `z`: `z` itself when `0.5 ≤ z ≤ 3.0`, 0.5 when
`z < 0.5`, 3.0 when `z > 3.0`; `SetZoom(5.0)` gives 3.0 and `SetZoom(0.1)` gives
0.5; the current page, the document and the base resolution are unchanged. -/
theorem setZoom_clamps (c : Controller) (z : ℚ) :
    (c.SetZoom z).zoomLevel = max 0.5 (min 3.0 z) ∧
      (0.5 ≤ z ∧ z ≤ 3.0 → (c.SetZoom z).zoomLevel = z) ∧
      (z < 0.5 → (c.SetZoom z).zoomLevel = 0.5) ∧
      (z > 3.0 → (c.SetZoom z).zoomLevel = 3.0) ∧
      (c.SetZoom 5.0).zoomLevel = 3.0 ∧
      (c.SetZoom 0.1).zoomLevel = 0.5 ∧
      (c.SetZoom z).currentPage = c.currentPage ∧
      (c.SetZoom z).engine = c.engine ∧
      (c.SetZoom z).baseDPI = c.baseDPI := by
  refine ⟨?_, ?_, ?_, ?_, ?_, ?_, rfl, rfl, rfl⟩ <;> simp only [Controller.SetZoom]
  · split_ifs with ha hb
    · rw [max_eq_left]
      exact le_trans (min_le_right _ _) (le_of_lt ha)
    · rw [min_eq_left (le_of_lt hb), max_eq_right]; norm_num
    · rw [min_eq_right (not_lt.mp hb), max_eq_right (not_lt.mp ha)]
  · rintro ⟨h1, h2⟩
    rw [if_neg (not_lt.mpr h1), if_neg (not_lt.mpr h2)]
  · intro h; rw [if_pos h]
  · intro h
    have hlo : ¬ z < 0.5 := by norm_num at h ⊢; linarith
    rw [if_neg hlo, if_pos h]
  · norm_num
  · norm_num

/-- C9: zoom round trip.  For a zoom `z` with `0.5 ≤ z` and `z * 1.25 ≤ 3.0`
(so that `z` is in `[0.5, 3.0]`), `ZoomIn` gives `z * 1.25` unclamped, the
following `ZoomOut` is not clamped either (`z * 1.25 / 1.25` is not below
0.5), and together they return the controller to where it was, zoom factor
`z` included. -/
theorem zoomIn_zoomOut_roundtrip (c : Controller)
    (h1 : 0.5 ≤ c.zoomLevel) (h3 : c.zoomLevel * 1.25 ≤ 3.0) :
    c.ZoomIn.zoomLevel = c.zoomLevel * 1.25 ∧
      ¬ (c.ZoomIn.zoomLevel / 1.25 < 0.5) ∧
      c.ZoomIn.ZoomOut.zoomLevel = c.zoomLevel ∧
      c.ZoomIn.ZoomOut = c := by
  have hin : c.ZoomIn = { c with zoomLevel := c.zoomLevel * 1.25 } := by
    simp only [Controller.ZoomIn]
    rw [if_neg (not_lt.mpr h3)]
  have hdiv : c.zoomLevel * 1.25 / 1.25 = c.zoomLevel := by
    rw [mul_div_assoc, div_self (by norm_num), mul_one]
  have hnc : ¬ (c.zoomLevel * 1.25 / 1.25 < 0.5) := by
    rw [hdiv]; exact not_lt.mpr h1
  have hout : c.ZoomIn.ZoomOut = c := by
    rw [hin]
    simp only [Controller.ZoomOut]
    rw [if_neg hnc, hdiv]
  refine ⟨by rw [hin], by rw [hin]; exact hnc, by rw [hout], hout⟩

/-- Witness for C9: zoom 2.4, the largest zoom for which `ZoomIn` is not
clamped (`2.4 * 1.25 = 3.0`). -/
theorem zoomIn_zoomOut_roundtrip_witness :
    (demoController 3 2.4).ZoomIn.zoomLevel = 3.0 ∧
      (demoController 3 2.4).ZoomIn.ZoomOut = demoController 3 2.4 := by
  have h := zoomIn_zoomOut_roundtrip (demoController 3 2.4)
    (by norm_num [demoController]) (by norm_num [demoController])
  refine ⟨?_, h.2.2.2⟩
  rw [h.1]
  norm_num [demoController]

/-! ## Rendering -/

/-- Counterexample for C10: after `OpenPDF("doc.pdf")` and one `ZoomIn` the
zoom factor is 1.25 and 150 × zoom is 187.5, a float64; `RenderCurrentPage`
asks go-fitz for page 1 (index 0) at 187 dpi, which is not 150 × zoom, and no
integer dpi is equal to 150 × zoom. -/
theorem render_dpi_not_base_times_zoom :
    (run demoWorld NewController [.openPDF "doc.pdf", .zoomIn]).zoomLevel = 1.25 ∧
      ((run demoWorld NewController [.openPDF "doc.pdf", .zoomIn]).RenderCurrentPage
          demoWorld).2 = [Call.imageDPI demoEngine.document 0 187] ∧
      (187 : ℚ) ≠ 150 * (run demoWorld NewController [.openPDF "doc.pdf", .zoomIn]).zoomLevel ∧
      ¬ ∃ dpi : Int,
        (dpi : ℚ) = 150 * (run demoWorld NewController [.openPDF "doc.pdf", .zoomIn]).zoomLevel := by
  have hrun : run demoWorld NewController [.openPDF "doc.pdf", .zoomIn] =
      demoController 1 1.25 := by
    simp [run, Op.apply, Controller.OpenPDF, NewPDFEngine, demoWorld, NewController,
      Controller.ZoomIn, demoController, demoEngine]
    norm_num
  rw [hrun]
  refine ⟨rfl, ?_, ?_, ?_⟩
  · have hf : float64 (((150 : Int) : ℚ) * 1.25) = 375 / 2 := by
      rw [float64_dyadic _ 1 375 (by norm_num) (by norm_num) (by norm_num)]
      norm_num
    have hd : goInt (float64 (((150 : Int) : ℚ) * 1.25)) = 187 := by
      rw [hf]
      unfold goInt
      norm_num
      decide
    simp only [Controller.RenderCurrentPage, demoController, hd]
    simp [PDFEngine.RenderPage, demoEngine, demoWorld]
  · norm_num [demoController]
  · rintro ⟨dpi, hdpi⟩
    have h2 : ((2 * dpi : Int) : ℚ) = ((375 : Int) : ℚ) := by
      push_cast
      rw [hdpi]
      norm_num [demoController]
    have h3 : 2 * dpi = 375 := by exact_mod_cast h2
    omega

/-- C10, amended: for every controller reached from a new one, with a document
open, `RenderCurrentPage` is the engine's `RenderPage` for the current page
number at the dpi `int(float64(150) * zoom)`: the float64 product, which is
150 × zoom rounded to the nearest float64 (within `2 ^ (-45)` of it), with its
fraction dropped.  That dpi is the integer part of 150 × zoom or the next
integer, and it is 150 × zoom whenever that is an integer.  Whenever the
current page is in `[1, pageCount]` the engine's page range check passes: the
one call made is go-fitz `ImageDPI` for page index `currentPage - 1` at that
dpi, and the result is what go-fitz returns. -/
theorem render_request (w : World) (ops : List Op) (c : Controller) (e : PDFEngine)
    (hc : run w NewController ops = c) (he : c.engine = some e) :
    c.RenderCurrentPage w = e.RenderPage w c.currentPage ⌊float64 (150 * c.zoomLevel)⌋ ∧
      ⌊150 * c.zoomLevel⌋ ≤ ⌊float64 (150 * c.zoomLevel)⌋ ∧
      ⌊float64 (150 * c.zoomLevel)⌋ ≤ ⌊150 * c.zoomLevel⌋ + 1 ∧
      |float64 (150 * c.zoomLevel) - 150 * c.zoomLevel| ≤ 2 ^ (-45 : Int) ∧
      (∀ n : Int, (n : ℚ) = 150 * c.zoomLevel → ⌊float64 (150 * c.zoomLevel)⌋ = n) ∧
      (1 ≤ c.currentPage ∧ c.currentPage ≤ c.GetPageCount →
        (c.RenderCurrentPage w).2 =
            [Call.imageDPI e.document (c.currentPage - 1)
              ((⌊float64 (150 * c.zoomLevel)⌋ : Int) : ℚ)] ∧
          (c.RenderCurrentPage w).1 ≠ .error (.renderOutOfRange c.currentPage e.pageCount) ∧
          (c.RenderCurrentPage w).1 =
            (match w.imageDPI e.document (c.currentPage - 1)
                ((⌊float64 (150 * c.zoomLevel)⌋ : Int) : ℚ) with
              | .error cause => .error (.renderFailed cause)
              | .ok img => .ok img)) := by
  have hb : c.baseDPI = 150 := by rw [← hc, run_baseDPI]; rfl
  have hz : 0.5 ≤ c.zoomLevel ∧ c.zoomLevel ≤ 3.0 := by
    rw [← hc]
    exact run_zoom_bounds w ops NewController (by norm_num [NewController])
      (by norm_num [NewController])
  have hx1 : (1 : ℚ) ≤ 150 * c.zoomLevel := by
    have := hz.1; norm_num at this; linarith
  have hx2 : 150 * c.zoomLevel < 2 ^ (9 : Int) := by
    have := hz.2; norm_num at this ⊢; linarith
  obtain ⟨g1, g2, g3, g4, g5⟩ := goInt_float64 (150 * c.zoomLevel) 9 hx1 hx2 (by norm_num)
  have hr : c.RenderCurrentPage w =
      e.RenderPage w c.currentPage ⌊float64 (150 * c.zoomLevel)⌋ := by
    simp only [Controller.RenderCurrentPage, he, hb]
    rw [← g1]
    norm_num
  refine ⟨hr, g2, g3, by simpa using g4, g5, ?_⟩
  rintro ⟨h1, h2⟩
  have h2e : c.currentPage ≤ e.pageCount := by
    simpa [Controller.GetPageCount, PDFEngine.GetPageCount, he] using h2
  have hin : ¬ (c.currentPage < 1 ∨ c.currentPage > e.pageCount) := by omega
  rw [hr]
  simp only [PDFEngine.RenderPage, if_neg hin]
  cases w.imageDPI e.document (c.currentPage - 1)
    ((⌊float64 (150 * c.zoomLevel)⌋ : Int) : ℚ) <;> simp

/-- Witness for C10: `doc.pdf` opened, `SetZoom` with the float64 nearest to
0.7, which is `3152519739159347 / 2 ^ 52`, then `GoToPage(3)`.  The exact
product 150 × zoom is just below 105 and rounds to the float64 105, so the one
call is go-fitz `ImageDPI` for page index 2 at 105 dpi, while the integer part
of 150 × zoom is 104. -/
theorem render_request_witness :
    run demoWorld NewController
        [.openPDF "doc.pdf", .setZoom (3152519739159347 / 4503599627370496), .goToPage 3] =
        demoController 3 (3152519739159347 / 4503599627370496) ∧
      ⌊(150 : ℚ) * (demoController 3 (3152519739159347 / 4503599627370496)).zoomLevel⌋ = 104 ∧
      ((demoController 3 (3152519739159347 / 4503599627370496)).RenderCurrentPage
          demoWorld).2 = [Call.imageDPI demoEngine.document 2 105] := by
  have hrun : run demoWorld NewController
      [.openPDF "doc.pdf", .setZoom (3152519739159347 / 4503599627370496), .goToPage 3] =
      demoController 3 (3152519739159347 / 4503599627370496) := by
    simp [run, Op.apply, Controller.OpenPDF, NewPDFEngine, demoWorld, NewController,
      Controller.SetZoom, Controller.GoToPage, PDFEngine.GetPageCount, demoController,
      demoEngine]
    norm_num
  have h := render_request demoWorld
    [.openPDF "doc.pdf", .setZoom (3152519739159347 / 4503599627370496), .goToPage 3]
    (demoController 3 (3152519739159347 / 4503599627370496)) demoEngine hrun rfl
  have hf : float64 ((150 : ℚ) *
      (demoController 3 (3152519739159347 / 4503599627370496)).zoomLevel) = 105 := by
    rw [float64_eq_of _ 6 7388718138654720 (by norm_num [demoController])
      (by norm_num [demoController]) (by norm_num [demoController])
      (by norm_num [demoController])]
    norm_num
  have hfl : ⌊float64 ((150 : ℚ) *
      (demoController 3 (3152519739159347 / 4503599627370496)).zoomLevel)⌋ = 105 := by
    rw [hf]; exact Int.floor_intCast 105
  have hcalls := (h.2.2.2.2.2 ⟨by decide, by decide⟩).1
  rw [hfl] at hcalls
  refine ⟨hrun, ?_, ?_⟩
  · rw [Int.floor_eq_iff]
    norm_num [demoController]
  · rw [hcalls]
    norm_num [demoController]

/-! ## Status text -/

theorem sprintfF1_nonneg (q : ℚ) (h : 0 ≤ q) :
    ∃ t : Int, 0 ≤ t ∧ |q - (t : ℚ) / 10| ≤ 1 / 20 ∧
      sprintfF1 q = toString (t / 10) ++ "." ++ toString (t % 10) := by
  refine ⟨roundHalfEven (q * 10), roundHalfEven_nonneg _ (by linarith), ?_, ?_⟩
  · have hr := roundHalfEven_abs (q * 10)
    rw [abs_le] at hr ⊢
    constructor <;> linarith [hr.1, hr.2]
  · unfold sprintfF1 tenthsString
    rw [if_neg (not_lt.mpr h)]

theorem formatFileSize_500 : formatFileSize 500 = "500 B" := by decide

theorem formatFileSize_2048 : formatFileSize 2048 = "2.0 KB" := by
  have hr : roundHalfEven (((2048 : Int) : ℚ) / 1024 * 10) = 20 :=
    roundHalfEven_of_lt _ 20 (by norm_num) (by norm_num)
  unfold formatFileSize sprintfF1
  rw [if_neg (by decide), if_pos (by decide), if_neg (by norm_num), hr]
  decide

theorem formatFileSize_2300000 : formatFileSize 2300000 = "2.2 MB" := by
  have hr : roundHalfEven (((2300000 : Int) : ℚ) / (1024 * 1024) * 10) = 21 + 1 :=
    roundHalfEven_of_gt _ 21 (by norm_num) (by norm_num)
  unfold formatFileSize sprintfF1
  rw [if_neg (by decide), if_neg (by decide), if_neg (by norm_num), hr]
  decide

/-- C11: the file-size part of the status text.  For a file of `n` bytes the
status text ends with the size label, `": "` and `formatFileSize n`, which is
`n` in decimal followed by `" B"` when `n < 1024`; `n/1024` rounded to the
nearest tenth, as digits, a point and one decimal, followed by `" KB"` when
`1024 ≤ n < 1024*1024`; and `n/(1024*1024)` rounded the same way followed by
`" MB"` otherwise.  500 gives `"500 B"`, 2048 gives `"2.0 KB"` and 2300000
gives `"2.2 MB"`. -/
theorem formatFileSize_spec (n : Int) :
    (n < 1024 → formatFileSize n = toString n ++ " B") ∧
      (1024 ≤ n ∧ n < 1024 * 1024 →
        ∃ t : Int, 0 ≤ t ∧ |(n : ℚ) / 1024 - (t : ℚ) / 10| ≤ 1 / 20 ∧
          formatFileSize n = toString (t / 10) ++ "." ++ toString (t % 10) ++ " KB") ∧
      (1024 * 1024 ≤ n →
        ∃ t : Int, 0 ≤ t ∧ |(n : ℚ) / (1024 * 1024) - (t : ℚ) / 10| ≤ 1 / 20 ∧
          formatFileSize n = toString (t / 10) ++ "." ++ toString (t % 10) ++ " MB") ∧
      formatFileSize 500 = "500 B" ∧
      formatFileSize 2048 = "2.0 KB" ∧
      formatFileSize 2300000 = "2.2 MB" ∧
      (∀ (w : World) (c : Controller) (e : PDFEngine) (tr : Translations),
        c.engine = some e → w.stat e.filePath = .ok n →
          c.GetStatusText w tr =
            e.GetFileName ++ "  |  " ++ tr.StatusPage ++ " " ++ toString c.currentPage ++
              " / " ++ toString e.GetPageCount ++ " " ++ "页" ++ "  |  " ++ tr.StatusZoom ++
              ": " ++ toString (goInt (float64 (c.zoomLevel * 100))) ++ "%" ++ "  |  " ++
              tr.StatusSize ++ ": " ++ formatFileSize n) := by
  refine ⟨?_, ?_, ?_, ?_, ?_, ?_, ?_⟩
  · intro h
    unfold formatFileSize
    rw [if_pos h]
  · rintro ⟨h1, h2⟩
    have hq : (0 : ℚ) ≤ (n : ℚ) / 1024 := by
      have : (0 : ℚ) ≤ (n : ℚ) := by exact_mod_cast (by omega : (0 : Int) ≤ n)
      positivity
    obtain ⟨t, ht0, hterr, hstr⟩ := sprintfF1_nonneg _ hq
    refine ⟨t, ht0, hterr, ?_⟩
    unfold formatFileSize
    rw [if_neg (by omega), if_pos h2, hstr]
  · intro h1
    have hq : (0 : ℚ) ≤ (n : ℚ) / (1024 * 1024) := by
      have : (0 : ℚ) ≤ (n : ℚ) := by exact_mod_cast (by omega : (0 : Int) ≤ n)
      positivity
    obtain ⟨t, ht0, hterr, hstr⟩ := sprintfF1_nonneg _ hq
    refine ⟨t, ht0, hterr, ?_⟩
    unfold formatFileSize
    rw [if_neg (by omega), if_neg (by omega), hstr]
  · exact formatFileSize_500
  · exact formatFileSize_2048
  · exact formatFileSize_2300000
  · intro w c e tr he hs
    simp only [Controller.GetStatusText, PDFEngine.GetFileSize, he, hs]

theorem goInt_float64_percent (z : ℚ) (hz : 0.5 ≤ z ∧ z ≤ 3.0) :
    goInt (float64 (z * 100)) = ⌊float64 (z * 100)⌋ ∧
      ⌊z * 100⌋ ≤ ⌊float64 (z * 100)⌋ ∧ ⌊float64 (z * 100)⌋ ≤ ⌊z * 100⌋ + 1 ∧
      |float64 (z * 100) - z * 100| ≤ 2 ^ (-45 : Int) ∧
      (∀ k : Int, (k : ℚ) = z * 100 → ⌊float64 (z * 100)⌋ = k) := by
  have hx1 : (1 : ℚ) ≤ z * 100 := by
    have := hz.1; norm_num at this; linarith
  have hx2 : z * 100 < 2 ^ (9 : Int) := by
    have := hz.2; norm_num at this ⊢; linarith
  simpa using goInt_float64 (z * 100) 9 hx1 hx2 (by norm_num)

theorem goInt_float64_hundred : goInt (float64 ((1.0 : ℚ) * 100)) = 100 := by
  have hf : float64 ((1.0 : ℚ) * 100) = 100 := by
    rw [float64_dyadic _ 0 100 (by norm_num) (by norm_num) (by norm_num)]
    norm_num
  rw [hf]
  unfold goInt
  norm_num

/-- Counterexample for C12: `OpenPDF("doc.pdf")`, four `ZoomOut` (the last one
clamped at 0.5) and three `ZoomIn` leave the zoom at 0.9765625; zoom × 100 is
97.65625, a float64, whose nearest integer is 98, and the status text shows
97. -/
theorem zoom_percent_not_rounded :
    run demoWorld NewController
        [.openPDF "doc.pdf", .zoomOut, .zoomOut, .zoomOut, .zoomOut, .zoomIn, .zoomIn, .zoomIn]
        = demoController 1 (125 / 128) ∧
      (0.5 : ℚ) ≤ 125 / 128 ∧ (125 / 128 : ℚ) ≤ 3.0 ∧
      round ((demoController 1 (125 / 128)).zoomLevel * 100) = 98 ∧
      goInt (float64 ((demoController 1 (125 / 128)).zoomLevel * 100)) = 97 ∧
      (demoController 1 (125 / 128)).GetStatusText demoWorld getEnglishTranslations =
        "doc.pdf  |  Page 1 / 10 页  |  Zoom: 97%  |  Size: 2.0 KB" := by
  have hf : float64 ((125 / 128 : ℚ) * 100) = 3125 / 32 := by
    rw [float64_dyadic _ 5 3125 (by norm_num) (by norm_num) (by norm_num)]
    norm_num
  have hg : goInt (float64 ((125 / 128 : ℚ) * 100)) = 97 := by
    rw [hf]
    unfold goInt
    norm_num
    decide
  have hsize : formatFileSize 2048 = "2.0 KB" := formatFileSize_2048
  refine ⟨?_, by norm_num, by norm_num, ?_, ?_, ?_⟩
  · simp [run, Op.apply, Controller.OpenPDF, NewPDFEngine, demoWorld, NewController,
      Controller.ZoomIn, Controller.ZoomOut, demoController, demoEngine]
    norm_num
  · rw [round_eq, Int.floor_eq_iff]
    norm_num [demoController]
  · exact hg
  · simp only [Controller.GetStatusText, demoController, PDFEngine.GetFileSize, demoWorld,
      demoEngine, PDFEngine.GetFileName, PDFEngine.GetPageCount, getEnglishTranslations, hg]
    simp only [if_true, hsize]
    decide

/-- C12, amended: for every zoom factor in `[0.5, 3.0]`, with a document
open, the zoom percentage shown in the status text and on the zoom label is
`int(zoom * 100)`: the float64 product, which is zoom × 100 rounded to the
nearest float64 (within `2 ^ (-45)` of it), with its fraction dropped.  It is
the integer part of zoom × 100 or the next integer, it is zoom × 100 whenever
that is an integer, and it is the nearest integer to zoom × 100 whenever the
fraction of zoom × 100 is below one half. -/
theorem zoom_percent_truncated (w : World) (c : Controller) (e : PDFEngine)
    (tr : Translations) (he : c.engine = some e)
    (hz : 0.5 ≤ c.zoomLevel ∧ c.zoomLevel ≤ 3.0) :
    goInt (float64 (c.zoomLevel * 100)) = ⌊float64 (c.zoomLevel * 100)⌋ ∧
      ⌊c.zoomLevel * 100⌋ ≤ ⌊float64 (c.zoomLevel * 100)⌋ ∧
      ⌊float64 (c.zoomLevel * 100)⌋ ≤ ⌊c.zoomLevel * 100⌋ + 1 ∧
      |float64 (c.zoomLevel * 100) - c.zoomLevel * 100| ≤ 2 ^ (-45 : Int) ∧
      (∀ n : Int, (n : ℚ) = c.zoomLevel * 100 → ⌊float64 (c.zoomLevel * 100)⌋ = n) ∧
      (c.zoomLevel * 100 - ((⌊c.zoomLevel * 100⌋ : Int) : ℚ) < 1 / 2 →
        ⌊float64 (c.zoomLevel * 100)⌋ = round (c.zoomLevel * 100)) ∧
      c.GetStatusText w tr =
        e.GetFileName ++ "  |  " ++ tr.StatusPage ++ " " ++ toString c.currentPage ++
          " / " ++ toString e.GetPageCount ++ " " ++ "页" ++ "  |  " ++ tr.StatusZoom ++
          ": " ++ toString ⌊float64 (c.zoomLevel * 100)⌋ ++ "%" ++ "  |  " ++
          tr.StatusSize ++ ": " ++
          (match e.GetFileSize w with
            | some fileSize => formatFileSize fileSize
            | none => "") ∧
      (∀ (ui : ViewerUI) (tab : PDFTab), ui.getCurrentTab = some tab → tab.controller = c →
        ui.updateZoomLabel = toString ⌊float64 (c.zoomLevel * 100)⌋ ++ "%") := by
  obtain ⟨hg, g2, g3, g4, g5⟩ := goInt_float64_percent c.zoomLevel hz
  refine ⟨hg, g2, g3, g4, g5, ?_, ?_, ?_⟩
  · intro hfr
    have herr : float64 (c.zoomLevel * 100) - c.zoomLevel * 100 < 1 / 2 :=
      lt_of_le_of_lt (abs_le.mp g4).2 (by norm_num)
    have hlt : float64 (c.zoomLevel * 100) < ((⌊c.zoomLevel * 100⌋ + 1 : Int) : ℚ) := by
      push_cast; linarith
    have hle : ⌊float64 (c.zoomLevel * 100)⌋ < ⌊c.zoomLevel * 100⌋ + 1 :=
      Int.floor_lt.mpr hlt
    have heq : ⌊float64 (c.zoomLevel * 100)⌋ = ⌊c.zoomLevel * 100⌋ := by omega
    rw [heq, round_eq]
    symm
    rw [Int.floor_eq_iff]
    have h1 := Int.floor_le (c.zoomLevel * 100)
    constructor <;> linarith
  · simp only [Controller.GetStatusText, he, hg]
  · intro ui tab hcur htab
    simp only [ViewerUI.updateZoomLabel, hcur, htab, Controller.HasDocument, he, hg]
    simp

/-- Witness for C12: page 1 of `doc.pdf` at the float64 nearest to 2.4, which
is `5404319552844595 / 2 ^ 51`.  The exact product zoom × 100 is just below
240 and rounds to the float64 240: the percentage shown is 240, while the
integer part of zoom × 100 is 239. -/
theorem zoom_percent_truncated_witness :
    (0.5 : ℚ) ≤ (demoController 1 (5404319552844595 / 2251799813685248)).zoomLevel ∧
      ⌊(demoController 1 (5404319552844595 / 2251799813685248)).zoomLevel * 100⌋ = 239 ∧
      goInt (float64
        ((demoController 1 (5404319552844595 / 2251799813685248)).zoomLevel * 100)) = 240 := by
  have hz : (0.5 : ℚ) ≤ (demoController 1 (5404319552844595 / 2251799813685248)).zoomLevel ∧
      (demoController 1 (5404319552844595 / 2251799813685248)).zoomLevel ≤ 3.0 := by
    constructor <;> norm_num [demoController]
  have h := zoom_percent_truncated demoWorld
    (demoController 1 (5404319552844595 / 2251799813685248)) demoEngine
    getEnglishTranslations rfl hz
  have hf : float64
      ((demoController 1 (5404319552844595 / 2251799813685248)).zoomLevel * 100) = 240 := by
    rw [float64_eq_of _ 7 8444249301319680 (by norm_num [demoController])
      (by norm_num [demoController]) (by norm_num [demoController])
      (by norm_num [demoController])]
    norm_num
  refine ⟨hz.1, ?_, ?_⟩
  · rw [Int.floor_eq_iff]
    norm_num [demoController]
  · rw [h.1, hf]
    exact Int.floor_intCast 240

/-! ## Sessions -/

theorem newPDFEngine_calls (w : World) (filePath : String) (call : Call)
    (h : call ∈ (NewPDFEngine w filePath).2) :
    call = .stat filePath ∨ call = .fitzNew filePath := by
  unfold NewPDFEngine at h
  split at h
  · simp at h; exact Or.inl h
  · split at h <;> simpa using h

theorem openPDF_calls (w : World) (c : Controller) (filePath : String) :
    (c.OpenPDF w filePath).2.2 = (NewPDFEngine w filePath).2 := by
  unfold Controller.OpenPDF
  rcases h : NewPDFEngine w filePath with ⟨r, calls⟩
  cases r <;> rfl

/-- C13, the code at the failing input: with `a.pdf` open (go-fitz document 1)
`OpenPDF("b.pdf")` succeeds, stores the engine of `b.pdf` (document 2), and the
only calls made are `os.Stat` and `fitz.New`; document 1 is not closed and the
controller no longer refers to it.  In every world, for every controller and
path, `OpenPDF` makes no `Close` call. -/
theorem openPDF_replace_no_close :
    (shelfController 2 1.25).OpenPDF shelfWorld "b.pdf" =
        (none,
          { engine := some { filePath := "b.pdf", document := { handle := 2, numPage := 5 },
                             pageCount := 5 },
            currentPage := 1, zoomLevel := 1.0, baseDPI := 150 },
          [Call.stat "b.pdf", Call.fitzNew "b.pdf"]) ∧
      Call.close { handle := 1, numPage := 3 } ∉
        ((shelfController 2 1.25).OpenPDF shelfWorld "b.pdf").2.2 ∧
      (∀ (w : World) (c : Controller) (filePath : String) (doc : FitzDocument),
        Call.close doc ∉ (c.OpenPDF w filePath).2.2) := by
  have hgen : ∀ (w : World) (c : Controller) (filePath : String) (doc : FitzDocument),
      Call.close doc ∉ (c.OpenPDF w filePath).2.2 := by
    intro w c filePath doc hmem
    rw [openPDF_calls] at hmem
    rcases newPDFEngine_calls w filePath _ hmem with h | h <;> simp at h
  refine ⟨?_, hgen _ _ _ _, hgen⟩
  simp [Controller.OpenPDF, NewPDFEngine, shelfWorld, shelfController]

/-! ## Page range with any page count -/

theorem op_page_inv (w : World) (c : Controller) (op : Op)
    (hinv : ∀ e, c.engine = some e → 1 ≤ e.pageCount →
      1 ≤ c.currentPage ∧ c.currentPage ≤ e.pageCount) :
    ∀ e, (op.apply w c).engine = some e → 1 ≤ e.pageCount →
      1 ≤ (op.apply w c).currentPage ∧ (op.apply w c).currentPage ≤ e.pageCount := by
  intro e he hP
  by_cases hn : op.isNav = true
  · have he0 : c.engine = some e := by rw [← nav_engine w c op hn]; exact he
    obtain ⟨h1, h2⟩ := hinv e he0 hP
    exact nav_page_bounds w c op e hn he0 h1 h2
  · cases op with
    | openPDF filePath =>
      rcases openPDF_cases w c filePath with ⟨_, hc⟩ | ⟨_, e1, hc⟩
      · simp only [Op.apply, hc] at he ⊢
        exact hinv e he hP
      · simp only [Op.apply, hc] at he ⊢
        exact ⟨le_refl 1, hP⟩
    | nextPage => exact absurd rfl hn
    | prevPage => exact absurd rfl hn
    | firstPage => exact absurd rfl hn
    | lastPage => exact absurd rfl hn
    | goToPage n => exact absurd rfl hn
    | setZoom z => exact hinv e he hP
    | zoomIn => exact hinv e he hP
    | zoomOut => exact hinv e he hP
    | resetZoom => exact hinv e he hP

theorem run_page_inv (w : World) (ops : List Op) (c : Controller)
    (hinv : ∀ e, c.engine = some e → 1 ≤ e.pageCount →
      1 ≤ c.currentPage ∧ c.currentPage ≤ e.pageCount) :
    ∀ e, (run w c ops).engine = some e → 1 ≤ e.pageCount →
      1 ≤ (run w c ops).currentPage ∧ (run w c ops).currentPage ≤ e.pageCount := by
  induction ops generalizing c with
  | nil => exact hinv
  | cons op rest ih => exact ih (op.apply w c) (op_page_inv w c op hinv)

/-- Counterexample for C16: `empty.pdf` has no page.  After `OpenPDF` the
session exists, the page count is 0 and the current page is 1, above the page
count; after `LastPage`, which returns true, the current page is 0, below 1. -/
theorem page_range_fails_without_pages :
    (run shelfWorld NewController [.openPDF "empty.pdf"]).HasDocument = true ∧
      (run shelfWorld NewController [.openPDF "empty.pdf"]).GetPageCount = 0 ∧
      (run shelfWorld NewController [.openPDF "empty.pdf"]).currentPage = 1 ∧
      (run shelfWorld NewController [.openPDF "empty.pdf"]).LastPage.1 = true ∧
      (run shelfWorld NewController [.openPDF "empty.pdf", .lastPage]).HasDocument = true ∧
      (run shelfWorld NewController [.openPDF "empty.pdf", .lastPage]).currentPage = 0 := by
  have hrun : run shelfWorld NewController [.openPDF "empty.pdf"] =
      { engine := some { filePath := "empty.pdf", document := { handle := 3, numPage := 0 },
                         pageCount := 0 },
        currentPage := 1, zoomLevel := 1.0, baseDPI := 150 } := by
    simp [run, Op.apply, Controller.OpenPDF, NewPDFEngine, shelfWorld, NewController]
  have hrun2 : run shelfWorld NewController [.openPDF "empty.pdf", .lastPage] =
      (run shelfWorld NewController [.openPDF "empty.pdf"]).LastPage.2 := rfl
  rw [hrun2, hrun]
  simp [Controller.HasDocument, Controller.GetPageCount, Controller.LastPage,
    PDFEngine.GetPageCount]

/-- C16, amended: whenever a session exists and its page count is at least 1,
the current page is within `[1, pageCount]`, after every sequence of `OpenPDF`
(succeeding or failing), `NextPage`, `PrevPage`, `FirstPage`, `LastPage` and
`GoToPage` calls (and zoom calls) on a new controller, in every world. -/
theorem page_range_with_pages (w : World) (ops : List Op) (e : PDFEngine)
    (he : (run w NewController ops).engine = some e) (hP : 1 ≤ e.pageCount) :
    1 ≤ (run w NewController ops).currentPage ∧
      (run w NewController ops).currentPage ≤ e.pageCount ∧
      (run w NewController ops).GetPageCount = e.pageCount := by
  obtain ⟨h1, h2⟩ := run_page_inv w ops NewController
    (fun e0 he0 _ => by simp [NewController] at he0) e he hP
  exact ⟨h1, h2, by simp [Controller.GetPageCount, PDFEngine.GetPageCount, he]⟩

/-- Witness for C16: `empty.pdf`, `LastPage`, then `a.pdf`, `LastPage`,
`NextPage`, `b.pdf`, `GoToPage(9)`, `GoToPage(4)`, `NextPage`, `NextPage`: the
current page is 5 of 5. -/
theorem page_range_with_pages_witness :
    run shelfWorld NewController
        [.openPDF "empty.pdf", .lastPage, .openPDF "a.pdf", .lastPage, .nextPage,
          .openPDF "b.pdf", .goToPage 9, .goToPage 4, .nextPage, .nextPage] =
        { engine := some { filePath := "b.pdf", document := { handle := 2, numPage := 5 },
                           pageCount := 5 },
          currentPage := 5, zoomLevel := 1.0, baseDPI := 150 } ∧
      1 ≤ (run shelfWorld NewController
        [.openPDF "empty.pdf", .lastPage, .openPDF "a.pdf", .lastPage, .nextPage,
          .openPDF "b.pdf", .goToPage 9, .goToPage 4, .nextPage, .nextPage]).currentPage := by
  have hrun : run shelfWorld NewController
      [.openPDF "empty.pdf", .lastPage, .openPDF "a.pdf", .lastPage, .nextPage,
        .openPDF "b.pdf", .goToPage 9, .goToPage 4, .nextPage, .nextPage] =
      { engine := some { filePath := "b.pdf", document := { handle := 2, numPage := 5 },
                         pageCount := 5 },
        currentPage := 5, zoomLevel := 1.0, baseDPI := 150 } := by
    simp [run, Op.apply, Controller.OpenPDF, NewPDFEngine, shelfWorld, NewController,
      Controller.LastPage, Controller.NextPage, Controller.GoToPage, PDFEngine.GetPageCount]
  exact ⟨hrun, (page_range_with_pages shelfWorld _
    { filePath := "b.pdf", document := { handle := 2, numPage := 5 }, pageCount := 5 }
    (by rw [hrun]) (by decide)).1⟩

/-! ## Zoom calls without a document -/

/-- Counterexample for C17: a new controller has no document and zoom 1.0;
`ZoomIn` makes the zoom 1.25, `ZoomOut` 0.8, `SetZoom(2)` 2, and after
`SetZoom(2)` `ResetZoom` makes it 1.0 again. -/
theorem zoom_calls_act_without_document :
    NewController.engine = none ∧ NewController.zoomLevel = 1.0 ∧
      NewController.ZoomIn.zoomLevel = 1.25 ∧
      NewController.ZoomIn.zoomLevel ≠ NewController.zoomLevel ∧
      NewController.ZoomOut.zoomLevel = 0.8 ∧
      NewController.ZoomOut.zoomLevel ≠ NewController.zoomLevel ∧
      (NewController.SetZoom 2).zoomLevel = 2 ∧
      (NewController.SetZoom 2).zoomLevel ≠ NewController.zoomLevel ∧
      (NewController.SetZoom 2).engine = none ∧
      (NewController.SetZoom 2).ResetZoom.zoomLevel = 1.0 ∧
      (NewController.SetZoom 2).ResetZoom.zoomLevel ≠ (NewController.SetZoom 2).zoomLevel := by
  refine ⟨rfl, rfl, ?_, ?_, ?_, ?_, ?_, ?_, rfl, rfl, ?_⟩ <;>
    norm_num [NewController, Controller.ZoomIn, Controller.ZoomOut, Controller.SetZoom,
      Controller.ResetZoom]

/-- C17, amended: on a controller with no open document the zoom calls act as
they do with one: `SetZoom(z)` sets the zoom to `max 0.5 (min 3.0 z)`, `ZoomIn`
to `min (zoom * 1.25) 3.0`, `ZoomOut` to `max (zoom / 1.25) 0.5` and
`ResetZoom` to 1.0; each leaves the current page unchanged and the controller
without a document. -/
theorem zoom_calls_without_document (c : Controller) (z : ℚ) (h : c.engine = none) :
    ((c.SetZoom z).zoomLevel = max 0.5 (min 3.0 z) ∧
        (c.SetZoom z).currentPage = c.currentPage ∧ (c.SetZoom z).engine = none) ∧
      (c.ZoomIn.zoomLevel = min (c.zoomLevel * 1.25) 3.0 ∧
        c.ZoomIn.currentPage = c.currentPage ∧ c.ZoomIn.engine = none) ∧
      (c.ZoomOut.zoomLevel = max (c.zoomLevel / 1.25) 0.5 ∧
        c.ZoomOut.currentPage = c.currentPage ∧ c.ZoomOut.engine = none) ∧
      (c.ResetZoom.zoomLevel = 1.0 ∧
        c.ResetZoom.currentPage = c.currentPage ∧ c.ResetZoom.engine = none) := by
  refine ⟨⟨?_, rfl, h⟩, ⟨?_, rfl, h⟩, ⟨?_, rfl, h⟩, ⟨rfl, rfl, h⟩⟩
  · simp only [Controller.SetZoom]
    split_ifs with ha hb
    · rw [max_eq_left]
      exact le_trans (min_le_right _ _) (le_of_lt ha)
    · rw [min_eq_left (le_of_lt hb), max_eq_right]; norm_num
    · rw [min_eq_right (not_lt.mp hb), max_eq_right (not_lt.mp ha)]
  · simp only [Controller.ZoomIn]
    split_ifs with ha
    · rw [min_eq_right (le_of_lt ha)]
    · rw [min_eq_left (not_lt.mp ha)]
  · simp only [Controller.ZoomOut]
    split_ifs with ha
    · rw [max_eq_right (le_of_lt ha)]
    · rw [max_eq_left (not_lt.mp ha)]

/-- Witness for C17: a new controller, `SetZoom(5)`. -/
theorem zoom_calls_without_document_witness :
    NewController.engine = none ∧ (NewController.SetZoom 5).zoomLevel = 3.0 ∧
      NewController.ZoomIn.zoomLevel = 1.25 := by
  have h := zoom_calls_without_document NewController 5 rfl
  refine ⟨rfl, ?_, ?_⟩
  · rw [h.1.1]; norm_num
  · rw [h.2.1.1]; norm_num [NewController]

/-! ## Status text and the translations table -/

/-- C18, the code at the failing input: for page 1 of `doc.pdf` (10 pages,
2048 bytes) at zoom 1.0 and the English table, whose four status strings are
ASCII like the file name, the status text is
`"doc.pdf  |  Page 1 / 10 页  |  Zoom: 100%  |  Size: 2.0 KB"`, which is not
ASCII: the page unit `页` is a literal of the format arguments, not a string of
the table.  With a document open the status text contains `页` for every
table; with no document it is `tr.StatusNoDocument`. -/
theorem statusText_hardcoded_page_unit :
    (demoController 1 1.0).GetStatusText demoWorld getEnglishTranslations =
        "doc.pdf  |  Page 1 / 10 页  |  Zoom: 100%  |  Size: 2.0 KB" ∧
      allASCII demoEngine.GetFileName = true ∧
      allASCII getEnglishTranslations.StatusNoDocument = true ∧
      allASCII getEnglishTranslations.StatusPage = true ∧
      allASCII getEnglishTranslations.StatusZoom = true ∧
      allASCII getEnglishTranslations.StatusSize = true ∧
      allASCII ((demoController 1 1.0).GetStatusText demoWorld getEnglishTranslations)
        = false ∧
      (∀ (w : World) (c : Controller) (e : PDFEngine) (tr : Translations),
        c.engine = some e → '页' ∈ (c.GetStatusText w tr).toList) ∧
      (∀ (w : World) (c : Controller) (tr : Translations),
        c.engine = none → c.GetStatusText w tr = tr.StatusNoDocument) := by
  have hg : goInt (float64 ((1.0 : ℚ) * 100)) = 100 := goInt_float64_hundred
  have htext : (demoController 1 1.0).GetStatusText demoWorld getEnglishTranslations =
      "doc.pdf  |  Page 1 / 10 页  |  Zoom: 100%  |  Size: 2.0 KB" := by
    simp only [Controller.GetStatusText, demoController, PDFEngine.GetFileSize, demoWorld,
      demoEngine, PDFEngine.GetFileName, PDFEngine.GetPageCount, getEnglishTranslations, hg]
    simp only [if_true, formatFileSize_2048]
    decide
  refine ⟨htext, by decide, by decide, by decide, by decide, by decide, ?_, ?_, ?_⟩
  · rw [htext]; decide
  · intro w c e tr he
    simp [Controller.GetStatusText, he, String.toList, String.data_append]
  · intro w c tr he
    simp only [Controller.GetStatusText, he]

/-! ## Tabs -/

theorem addNewTab_tabs (ui : ViewerUI) (filePath : String) :
    (ui.addNewTab filePath).tabs =
      ui.tabs ++ [{ controller := NewController, tabItem := ui.nextItem }] := by
  unfold ViewerUI.addNewTab NewPDFTab
  split_ifs <;> rfl

theorem addNewTab_container (ui : ViewerUI) (filePath : String) :
    (ui.addNewTab filePath).tabContainer =
      (ui.tabContainer.Append ui.nextItem).Select ui.nextItem := by
  unfold ViewerUI.addNewTab NewPDFTab
  split_ifs <;> rfl

theorem addNewTab_nextItem (ui : ViewerUI) (filePath : String) :
    (ui.addNewTab filePath).nextItem = ui.nextItem + 1 := by
  unfold ViewerUI.addNewTab NewPDFTab
  split_ifs <;> rfl

theorem addNewTab_spawned (ui : ViewerUI) (filePath : String) :
    (ui.addNewTab filePath).spawned =
      ui.spawned ++ (if filePath ≠ "" then [(ui.nextItem, filePath)] else []) := by
  unfold ViewerUI.addNewTab NewPDFTab
  split_ifs <;> rfl

theorem append_select_selected (t : AppTabs) (item : Nat) :
    ((t.Append item).Select item).Selected = some item := by
  have hmem : item ∈ t.items ++ [item] := by simp
  have hidx : (t.items ++ [item]).indexOf item < (t.items ++ [item]).length :=
    List.indexOf_lt_length.mpr hmem
  have hitems : (t.Append item).items = t.items ++ [item] := rfl
  unfold AppTabs.Select
  rw [hitems, if_pos hidx]
  unfold AppTabs.Selected
  simp only [hitems]
  rw [if_neg (by omega)]
  simp only [Int.toNat_ofNat]
  rw [List.getElem?_eq_getElem hidx]
  simp

theorem closeCurrentTab_tabs_ne_nil (ui : ViewerUI) (h : ui.tabs ≠ []) :
    ui.closeCurrentTab.1.tabs ≠ [] := by
  unfold ViewerUI.closeCurrentTab
  split
  · exact h
  · dsimp only
    split_ifs with hlen
    · simp [addNewTab_tabs]
    · intro hnil
      apply hlen
      simp only at hnil
      simp [hnil]

theorem onTab_tabs_ne_nil (ui : ViewerUI) (item : Nat) (f : PDFTab → PDFTab)
    (h : ui.tabs ≠ []) : (ui.onTab item f).tabs ≠ [] := by
  simpa [ViewerUI.onTab] using h

theorem onCurrentTab_tabs_ne_nil (ui : ViewerUI) (f : PDFTab → PDFTab)
    (h : ui.tabs ≠ []) : (ui.onCurrentTab f).tabs ≠ [] := by
  unfold ViewerUI.onCurrentTab
  split
  · exact h
  · exact onTab_tabs_ne_nil ui _ f h

theorem uiOp_tabs_ne_nil (w : World) (ui : ViewerUI) (op : UIOp) (h : ui.tabs ≠ []) :
    (op.apply w ui).tabs ≠ [] := by
  cases op with
  | addNewTab filePath => simp [UIOp.apply, addNewTab_tabs]
  | closeCurrentTab => exact closeCurrentTab_tabs_ne_nil ui h
  | onOpenFile filePath =>
    simp only [UIOp.apply, ViewerUI.onOpenFile]
    split
    · split_ifs
      · exact h
      · simp [addNewTab_tabs]
    · simp [addNewTab_tabs]
  | goLoad k =>
    simp only [UIOp.apply, ViewerUI.goLoad]
    split
    · exact h
    · simpa using h
  | openFileInCurrentTab filePath =>
    simp only [UIOp.apply, ViewerUI.openFileInCurrentTab]
    split <;> exact h
  | onFirstPage => exact onCurrentTab_tabs_ne_nil ui _ h
  | onPrevPage => exact onCurrentTab_tabs_ne_nil ui _ h
  | onNextPage => exact onCurrentTab_tabs_ne_nil ui _ h
  | onLastPage => exact onCurrentTab_tabs_ne_nil ui _ h
  | onPageJump parsed =>
    simp only [UIOp.apply, ViewerUI.onPageJump]
    split
    · exact h
    · split
      · exact h
      · exact onTab_tabs_ne_nil ui _ _ h
  | onZoomIn => exact onCurrentTab_tabs_ne_nil ui _ h
  | onZoomOut => exact onCurrentTab_tabs_ne_nil ui _ h
  | onZoomReset => exact onCurrentTab_tabs_ne_nil ui _ h
  | onScrollWheel item dy => exact onTab_tabs_ne_nil ui _ _ h
  | selectTab item => exact h
  | switchLanguage lang =>
    simp only [UIOp.apply, ViewerUI.switchLanguage]
    split_ifs <;> exact h

theorem foldl_tabs_ne_nil (w : World) (ops : List UIOp) (ui : ViewerUI) (h : ui.tabs ≠ []) :
    (ops.foldl (UIOp.apply w) ui).tabs ≠ [] := by
  induction ops generalizing ui with
  | nil => exact h
  | cons op rest ih => exact ih (op.apply w ui) (uiOp_tabs_ne_nil w ui op h)

theorem runUI_tabs_ne_nil (w : World) (ops : List UIOp) : (runUI w ops).tabs ≠ [] :=
  foldl_tabs_ne_nil w ops NewViewerUI (by simp [NewViewerUI, addNewTab_tabs])

/-- C14: tab collection under close.  In every application state reached from
`NewViewerUI` (by `addNewTab`, `closeCurrentTab`, the open-file callback, the
load goroutines, page navigation, zoom, tab selection and language switching),
the tab list is non-empty after `closeCurrentTab`; and
when the list held exactly one tab and it was the current tab, afterwards the
list holds exactly one tab, with a new controller (no document, page 1, zoom
1.0), that tab is the current tab, the tab container selects its item, and
the closed tab's go-fitz document, when it had one, has been closed. -/
theorem closeCurrentTab_keeps_a_tab (w : World) (ops : List UIOp) :
    (runUI w ops).closeCurrentTab.1.tabs ≠ [] ∧
      (∀ tab : PDFTab, (runUI w ops).tabs = [tab] →
        (runUI w ops).getCurrentTab = some tab →
        ∃ fresh : PDFTab,
          (runUI w ops).closeCurrentTab.1.tabs = [fresh] ∧
            fresh.controller = NewController ∧
            fresh.controller.HasDocument = false ∧
            fresh.controller.currentPage = 1 ∧
            fresh.controller.zoomLevel = 1.0 ∧
            (runUI w ops).closeCurrentTab.1.getCurrentTab = some fresh ∧
            (runUI w ops).closeCurrentTab.1.tabContainer.Selected = some fresh.tabItem ∧
            (∀ e : PDFEngine, tab.controller.engine = some e →
              (runUI w ops).closeCurrentTab.2 = [Call.close e.document])) := by
  refine ⟨closeCurrentTab_tabs_ne_nil _ (runUI_tabs_ne_nil w ops), ?_⟩
  generalize runUI w ops = ui
  intro tab htabs hcur
  have hrem : removeTab ui.tabs tab.tabItem = [] := by
    rw [htabs]; simp [removeTab]
  refine ⟨{ controller := NewController, tabItem := ui.nextItem }, ?_, rfl, rfl, rfl, rfl,
    ?_, ?_, ?_⟩
  · simp only [ViewerUI.closeCurrentTab, hcur, hrem, List.length_nil, if_true,
      addNewTab_tabs, List.nil_append]
  · simp only [ViewerUI.closeCurrentTab, hcur, hrem, List.length_nil, if_true]
    unfold ViewerUI.getCurrentTab
    rw [addNewTab_tabs, addNewTab_container, append_select_selected]
    simp
  · simp only [ViewerUI.closeCurrentTab, hcur, hrem, List.length_nil, if_true]
    rw [addNewTab_container, append_select_selected]
  · intro e he
    simp only [ViewerUI.closeCurrentTab, hcur, hrem, List.length_nil, if_true, he,
      PDFEngine.Close]

theorem runUI_open_doc :
    (runUI demoWorld [.onOpenFile "doc.pdf", .goLoad 0]).tabs =
        [{ controller := demoController 1 1.0, tabItem := 0 }] ∧
      (runUI demoWorld [.onOpenFile "doc.pdf", .goLoad 0]).getCurrentTab =
        some { controller := demoController 1 1.0, tabItem := 0 } := by
  have hsel : ((NewAppTabs.Append 0).Select 0).Selected = some 0 :=
    append_select_selected NewAppTabs 0
  have hnew : NewViewerUI =
      { tabContainer := (NewAppTabs.Append 0).Select 0,
        tabs := [{ controller := NewController, tabItem := 0 }],
        currentLang := LangEnglish, tr := GetTranslations LangEnglish, nextItem := 1,
        spawned := [] } := by
    simp [NewViewerUI, ViewerUI.addNewTab, NewPDFTab]
  have hcur0 : NewViewerUI.getCurrentTab = some { controller := NewController, tabItem := 0 } := by
    rw [hnew]
    simp [ViewerUI.getCurrentTab, hsel]
  have hopen : NewViewerUI.onOpenFile "doc.pdf" =
      { tabContainer := (NewAppTabs.Append 0).Select 0,
        tabs := [{ controller := NewController, tabItem := 0 }],
        currentLang := LangEnglish, tr := GetTranslations LangEnglish, nextItem := 1,
        spawned := [(0, "doc.pdf")] } := by
    unfold ViewerUI.onOpenFile
    rw [hcur0]
    simp [Controller.HasDocument, NewController, hnew]
  have hload : (NewViewerUI.onOpenFile "doc.pdf").goLoad demoWorld 0 =
      { tabContainer := (NewAppTabs.Append 0).Select 0,
        tabs := [{ controller := demoController 1 1.0, tabItem := 0 }],
        currentLang := LangEnglish, tr := GetTranslations LangEnglish, nextItem := 1,
        spawned := [] } := by
    rw [hopen]
    simp [ViewerUI.goLoad, PDFTab.loadPDF, Controller.OpenPDF, NewPDFEngine, demoWorld,
      NewController, demoController, demoEngine]
  have hrun : runUI demoWorld [.onOpenFile "doc.pdf", .goLoad 0] =
      (NewViewerUI.onOpenFile "doc.pdf").goLoad demoWorld 0 := rfl
  rw [hrun, hload]
  exact ⟨rfl, by simp [ViewerUI.getCurrentTab, hsel]⟩

/-- Witness for C14: `doc.pdf` opened in the first tab, the only one; closing
it closes go-fitz document 1 and leaves one tab. -/
theorem closeCurrentTab_keeps_a_tab_witness :
    (runUI demoWorld [.onOpenFile "doc.pdf", .goLoad 0]).tabs =
        [{ controller := demoController 1 1.0, tabItem := 0 }] ∧
      (runUI demoWorld [.onOpenFile "doc.pdf", .goLoad 0]).closeCurrentTab.2 =
        [Call.close { handle := 1, numPage := 10 }] ∧
      (runUI demoWorld [.onOpenFile "doc.pdf", .goLoad 0]).closeCurrentTab.1.tabs.length = 1 := by
  obtain ⟨fresh, htabs, _, _, _, _, _, _, hclose⟩ :=
    (closeCurrentTab_keeps_a_tab demoWorld [.onOpenFile "doc.pdf", .goLoad 0]).2
      { controller := demoController 1 1.0, tabItem := 0 } runUI_open_doc.1 runUI_open_doc.2
  exact ⟨runUI_open_doc.1, hclose demoEngine rfl, by rw [htabs]; rfl⟩

/-! ## Tab items are distinct -/

theorem removeTab_sublist (l : List PDFTab) (item : Nat) : (removeTab l item).Sublist l := by
  induction l with
  | nil => exact List.Sublist.refl _
  | cons tab rest ih =>
    unfold removeTab
    split_ifs
    · exact List.sublist_cons_self _ _
    · exact ih.cons₂ _

theorem addNewTab_itemsFresh (ui : ViewerUI) (filePath : String) (h : ui.itemsFresh) :
    (ui.addNewTab filePath).itemsFresh := by
  obtain ⟨hnd, hlt⟩ := h
  unfold ViewerUI.itemsFresh
  rw [addNewTab_tabs, addNewTab_nextItem]
  constructor
  · rw [List.map_append, List.nodup_append]
    refine ⟨hnd, by simp, ?_⟩
    intro a ha hb
    simp only [List.map_cons, List.map_nil, List.mem_singleton] at hb
    obtain ⟨tab, htab, rfl⟩ := List.mem_map.mp ha
    have := hlt tab htab
    omega
  · intro tab htab
    rcases List.mem_append.mp htab with h1 | h1
    · have := hlt tab h1; omega
    · simp only [List.mem_singleton] at h1
      subst h1
      simp

theorem closeCurrentTab_itemsFresh (ui : ViewerUI) (h : ui.itemsFresh) :
    ui.closeCurrentTab.1.itemsFresh := by
  unfold ViewerUI.closeCurrentTab
  split
  · exact h
  · rename_i currentTab _
    have hsub := removeTab_sublist ui.tabs currentTab.tabItem
    have h1 : ViewerUI.itemsFresh
        { ui with
          tabs := removeTab ui.tabs currentTab.tabItem
          tabContainer := ui.tabContainer.Remove currentTab.tabItem } :=
      ⟨h.1.sublist (hsub.map _), fun tab htab => h.2 tab (hsub.subset htab)⟩
    dsimp only
    split_ifs
    · exact addNewTab_itemsFresh _ _ h1
    · exact h1

theorem onOpenFile_itemsFresh (ui : ViewerUI) (filePath : String) (h : ui.itemsFresh) :
    (ui.onOpenFile filePath).itemsFresh := by
  unfold ViewerUI.onOpenFile
  split
  · split_ifs
    · exact h
    · exact addNewTab_itemsFresh _ _ h
  · exact addNewTab_itemsFresh _ _ h

theorem goLoad_itemsFresh (w : World) (ui : ViewerUI) (k : Nat) (h : ui.itemsFresh) :
    (ui.goLoad w k).itemsFresh := by
  unfold ViewerUI.goLoad
  split
  · exact h
  · rename_i item filePath _
    have hmap : (ui.tabs.map (fun tab =>
        if tab.tabItem = item then (tab.loadPDF w filePath).1 else tab)).map PDFTab.tabItem =
        ui.tabs.map PDFTab.tabItem := by
      rw [List.map_map]
      apply List.map_congr_left
      intro tab _
      simp only [Function.comp]
      split_ifs <;> rfl
    constructor
    · simp only [hmap]; exact h.1
    · intro tab htab
      simp only [List.mem_map] at htab
      obtain ⟨tab0, h0, rfl⟩ := htab
      have := h.2 tab0 h0
      split_ifs <;> simpa [PDFTab.loadPDF] using this

theorem onTab_itemsFresh (ui : ViewerUI) (item : Nat) (f : PDFTab → PDFTab)
    (hf : ∀ tab, (f tab).tabItem = tab.tabItem) (h : ui.itemsFresh) :
    (ui.onTab item f).itemsFresh := by
  have hmap : (ui.tabs.map (fun tab => if tab.tabItem = item then f tab else tab)).map
      PDFTab.tabItem = ui.tabs.map PDFTab.tabItem := by
    rw [List.map_map]
    apply List.map_congr_left
    intro tab _
    simp only [Function.comp]
    split_ifs
    · exact hf tab
    · rfl
  constructor
  · simp only [ViewerUI.onTab, hmap]; exact h.1
  · intro tab htab
    simp only [ViewerUI.onTab, List.mem_map] at htab
    obtain ⟨tab0, h0, rfl⟩ := htab
    have := h.2 tab0 h0
    split_ifs
    · rw [hf tab0]; exact this
    · exact this

theorem onCurrentTab_itemsFresh (ui : ViewerUI) (f : PDFTab → PDFTab)
    (hf : ∀ tab, (f tab).tabItem = tab.tabItem) (h : ui.itemsFresh) :
    (ui.onCurrentTab f).itemsFresh := by
  unfold ViewerUI.onCurrentTab
  split
  · exact h
  · exact onTab_itemsFresh ui _ f hf h

theorem onScrollWheel_tabItem (dy : ℚ) (tab : PDFTab) :
    (tab.onScrollWheel dy).tabItem = tab.tabItem := by
  unfold PDFTab.onScrollWheel
  split_ifs <;> rfl

theorem runUI_itemsFresh (w : World) (ops : List UIOp) : (runUI w ops).itemsFresh := by
  have key : ∀ (l : List UIOp) (ui : ViewerUI), ui.itemsFresh →
      (l.foldl (UIOp.apply w) ui).itemsFresh := by
    intro l
    induction l with
    | nil => intro ui h; exact h
    | cons op rest ih =>
      intro ui h
      apply ih
      cases op with
      | addNewTab filePath => exact addNewTab_itemsFresh ui filePath h
      | closeCurrentTab => exact closeCurrentTab_itemsFresh ui h
      | onOpenFile filePath => exact onOpenFile_itemsFresh ui filePath h
      | goLoad k => exact goLoad_itemsFresh w ui k h
      | openFileInCurrentTab filePath =>
        simp only [UIOp.apply, ViewerUI.openFileInCurrentTab]
        split <;> exact h
      | onFirstPage => exact onCurrentTab_itemsFresh ui _ (fun _ => rfl) h
      | onPrevPage => exact onCurrentTab_itemsFresh ui _ (fun _ => rfl) h
      | onNextPage => exact onCurrentTab_itemsFresh ui _ (fun _ => rfl) h
      | onLastPage => exact onCurrentTab_itemsFresh ui _ (fun _ => rfl) h
      | onPageJump parsed =>
        simp only [UIOp.apply, ViewerUI.onPageJump]
        split
        · exact h
        · split
          · exact h
          · exact onTab_itemsFresh ui _ _ (fun _ => rfl) h
      | onZoomIn => exact onCurrentTab_itemsFresh ui _ (fun _ => rfl) h
      | onZoomOut => exact onCurrentTab_itemsFresh ui _ (fun _ => rfl) h
      | onZoomReset => exact onCurrentTab_itemsFresh ui _ (fun _ => rfl) h
      | onScrollWheel item dy =>
        exact onTab_itemsFresh ui _ _ (onScrollWheel_tabItem dy) h
      | selectTab item => exact h
      | switchLanguage lang =>
        simp only [UIOp.apply, ViewerUI.switchLanguage]
        split_ifs <;> exact h
  apply key
  apply addNewTab_itemsFresh
  exact ⟨by simp, by simp⟩

/-! ## Opening a file from the dialog -/

theorem getCurrentTab_mem (ui : ViewerUI) (t : PDFTab) (h : ui.getCurrentTab = some t) :
    t ∈ ui.tabs := by
  unfold ViewerUI.getCurrentTab at h
  split_ifs at h
  split at h
  · exact absurd h (by simp)
  · exact List.mem_of_find?_eq_some h

theorem goLoad_tabs (w : World) (ui : ViewerUI) (k item : Nat) (filePath : String)
    (h : ui.spawned[k]? = some (item, filePath)) :
    (ui.goLoad w k).tabs =
      ui.tabs.map (fun tab => if tab.tabItem = item then (tab.loadPDF w filePath).1 else tab) := by
  unfold ViewerUI.goLoad
  rw [h]

theorem map_load_only (w : World) (tabs : List PDFTab) (t : PDFTab) (filePath : String)
    (hnd : (tabs.map PDFTab.tabItem).Nodup) (ht : t ∈ tabs) :
    tabs.map (fun tab => if tab.tabItem = t.tabItem then (tab.loadPDF w filePath).1 else tab) =
      tabs.map (fun tab => if tab = t then (t.loadPDF w filePath).1 else tab) := by
  apply List.map_congr_left
  intro tab htab
  by_cases heq : tab = t
  · subst heq; simp
  · have hne : tab.tabItem ≠ t.tabItem := fun hitem =>
      heq (List.inj_on_of_nodup_map hnd htab ht hitem)
    rw [if_neg hne, if_neg heq]

theorem map_load_fresh (w : World) (tabs : List PDFTab) (item : Nat) (filePath : String)
    (hlt : ∀ tab ∈ tabs, tab.tabItem < item) :
    tabs.map (fun tab => if tab.tabItem = item then (tab.loadPDF w filePath).1 else tab) =
      tabs := by
  conv_rhs => rw [← List.map_id tabs]
  apply List.map_congr_left
  intro tab htab
  have := hlt tab htab
  rw [if_neg (by omega)]
  rfl

/-- C15: open-file routing.  In every application state reached from
`NewViewerUI` by any sequence of steps (tabs added and closed, files opened
and loaded, page navigation and zoom in any tab, tab selection, language
switching), when a path is picked in the open dialog and `t` is the current
tab: if `t` has no document, no tab is added, the tab container is unchanged,
one load of the path into `t` is started, and once it has run `t` holds the
result of `OpenPDF(path)` while every other tab, and so every tab that held a
document, is unchanged; if `t` has a document, exactly one tab with a new
controller is appended after the unchanged tabs and is the current tab, and
for a non-empty path one load of the path into it is started, after which the
earlier tabs are still unchanged. -/
theorem onOpenFile_routing (w : World) (ops : List UIOp) (ui : ViewerUI)
    (filePath : String) (t : PDFTab)
    (hui : runUI w ops = ui) (hcur : ui.getCurrentTab = some t) :
    (t.controller.HasDocument = false →
        (ui.onOpenFile filePath).tabs = ui.tabs ∧
          (ui.onOpenFile filePath).tabContainer = ui.tabContainer ∧
          (ui.onOpenFile filePath).spawned = ui.spawned ++ [(t.tabItem, filePath)] ∧
          ((ui.onOpenFile filePath).goLoad w ui.spawned.length).tabs =
            ui.tabs.map (fun tab =>
              if tab = t then
                { controller := (t.controller.OpenPDF w filePath).2.1, tabItem := t.tabItem }
              else tab) ∧
          ((ui.onOpenFile filePath).goLoad w ui.spawned.length).tabs.length = ui.tabs.length ∧
          (∀ (i : Nat) (tab : PDFTab), ui.tabs[i]? = some tab →
            tab.controller.HasDocument = true →
            ((ui.onOpenFile filePath).goLoad w ui.spawned.length).tabs[i]? = some tab)) ∧
      (t.controller.HasDocument = true →
        (ui.onOpenFile filePath).tabs =
            ui.tabs ++ [{ controller := NewController, tabItem := ui.nextItem }] ∧
          (ui.onOpenFile filePath).getCurrentTab =
            some { controller := NewController, tabItem := ui.nextItem } ∧
          (filePath ≠ "" →
            (ui.onOpenFile filePath).spawned = ui.spawned ++ [(ui.nextItem, filePath)] ∧
              ((ui.onOpenFile filePath).goLoad w ui.spawned.length).tabs =
                ui.tabs ++ [{ controller := (NewController.OpenPDF w filePath).2.1,
                              tabItem := ui.nextItem }])) := by
  have hfresh : ui.itemsFresh := by rw [← hui]; exact runUI_itemsFresh w ops
  have hmem : t ∈ ui.tabs := getCurrentTab_mem ui t hcur
  constructor
  · intro hdoc
    have hopen : ui.onOpenFile filePath =
        { ui with spawned := ui.spawned ++ [(t.tabItem, filePath)] } := by
      unfold ViewerUI.onOpenFile
      rw [hcur]
      simp [hdoc]
    have hget : (ui.onOpenFile filePath).spawned[ui.spawned.length]? =
        some (t.tabItem, filePath) := by
      rw [hopen]; simp
    have htabs : ((ui.onOpenFile filePath).goLoad w ui.spawned.length).tabs =
        ui.tabs.map (fun tab =>
          if tab = t then
            { controller := (t.controller.OpenPDF w filePath).2.1, tabItem := t.tabItem }
          else tab) := by
      rw [goLoad_tabs w _ _ _ _ hget, hopen]
      exact map_load_only w ui.tabs t filePath hfresh.1 hmem
    refine ⟨by rw [hopen], by rw [hopen], by rw [hopen], htabs, by rw [htabs]; simp, ?_⟩
    intro i tab hi htab
    rw [htabs, List.getElem?_map, hi]
    have hne : tab ≠ t := by
      intro heq
      rw [heq, hdoc] at htab
      exact absurd htab (by simp)
    simp [hne]
  · intro hdoc
    have hopen : ui.onOpenFile filePath = ui.addNewTab filePath := by
      unfold ViewerUI.onOpenFile
      rw [hcur]
      simp [hdoc]
    have hnone : ui.tabs.find? (fun tab => tab.tabItem == ui.nextItem) = none := by
      rw [List.find?_eq_none]
      intro tab htab
      have := hfresh.2 tab htab
      simp only [beq_iff_eq]
      omega
    refine ⟨by rw [hopen, addNewTab_tabs], ?_, ?_⟩
    · rw [hopen]
      unfold ViewerUI.getCurrentTab
      rw [addNewTab_tabs, addNewTab_container, append_select_selected]
      simp [List.find?_append, hnone]
    · intro hpath
      have hsp : (ui.onOpenFile filePath).spawned = ui.spawned ++ [(ui.nextItem, filePath)] := by
        rw [hopen, addNewTab_spawned, if_pos hpath]
      have hget : (ui.onOpenFile filePath).spawned[ui.spawned.length]? =
          some (ui.nextItem, filePath) := by
        rw [hsp]; simp
      refine ⟨hsp, ?_⟩
      rw [goLoad_tabs w _ _ _ _ hget, hopen, addNewTab_tabs, List.map_append,
        map_load_fresh w ui.tabs ui.nextItem filePath hfresh.2]
      simp [PDFTab.loadPDF]

theorem runUI_snoc (w : World) (ops : List UIOp) (op : UIOp) :
    runUI w (ops ++ [op]) = op.apply w (runUI w ops) := by
  simp [runUI, List.foldl_append]

theorem runUI_open_doc_state :
    runUI demoWorld [.onOpenFile "doc.pdf", .goLoad 0] =
      { tabContainer := { items := [0], current := 0 },
        tabs := [{ controller := demoController 1 1.0, tabItem := 0 }],
        currentLang := LangEnglish, tr := GetTranslations LangEnglish, nextItem := 1,
        spawned := [] } := by
  have hc : (NewAppTabs.Append 0).Select 0 = { items := [0], current := 0 } := by decide
  have hnew : NewViewerUI =
      { tabContainer := { items := [0], current := 0 },
        tabs := [{ controller := NewController, tabItem := 0 }],
        currentLang := LangEnglish, tr := GetTranslations LangEnglish, nextItem := 1,
        spawned := [] } := by
    simp [NewViewerUI, ViewerUI.addNewTab, NewPDFTab, hc]
  have hrun : runUI demoWorld [.onOpenFile "doc.pdf", .goLoad 0] =
      (NewViewerUI.onOpenFile "doc.pdf").goLoad demoWorld 0 := rfl
  rw [hrun, hnew]
  simp [ViewerUI.onOpenFile, ViewerUI.getCurrentTab, AppTabs.Selected, Controller.HasDocument,
    ViewerUI.goLoad, PDFTab.loadPDF, Controller.OpenPDF, NewPDFEngine, demoWorld,
    NewController, demoController, demoEngine]

theorem runUI_two_tabs :
    runUI demoWorld
        [.onOpenFile "doc.pdf", .goLoad 0, .onNextPage, .onZoomIn, .addNewTab "", .selectTab 0] =
      { tabContainer := { items := [0, 1], current := 0 },
        tabs := [{ controller := demoController 2 1.25, tabItem := 0 },
                 { controller := NewController, tabItem := 1 }],
        currentLang := LangEnglish, tr := GetTranslations LangEnglish, nextItem := 2,
        spawned := [] } := by
  have h3 : runUI demoWorld [.onOpenFile "doc.pdf", .goLoad 0, .onNextPage] =
      { tabContainer := { items := [0], current := 0 },
        tabs := [{ controller := demoController 2 1.0, tabItem := 0 }],
        currentLang := LangEnglish, tr := GetTranslations LangEnglish, nextItem := 1,
        spawned := [] } := by
    rw [show [UIOp.onOpenFile "doc.pdf", .goLoad 0, .onNextPage] =
      [UIOp.onOpenFile "doc.pdf", .goLoad 0] ++ [.onNextPage] from rfl, runUI_snoc,
      runUI_open_doc_state]
    simp [UIOp.apply, ViewerUI.onCurrentTab, ViewerUI.onTab, ViewerUI.getCurrentTab,
      AppTabs.Selected, PDFTab.onNextPage, Controller.NextPage, PDFEngine.GetPageCount,
      demoController, demoEngine]
  have h4 : runUI demoWorld [.onOpenFile "doc.pdf", .goLoad 0, .onNextPage, .onZoomIn] =
      { tabContainer := { items := [0], current := 0 },
        tabs := [{ controller := demoController 2 1.25, tabItem := 0 }],
        currentLang := LangEnglish, tr := GetTranslations LangEnglish, nextItem := 1,
        spawned := [] } := by
    rw [show [UIOp.onOpenFile "doc.pdf", .goLoad 0, .onNextPage, .onZoomIn] =
      [UIOp.onOpenFile "doc.pdf", .goLoad 0, .onNextPage] ++ [.onZoomIn] from rfl, runUI_snoc,
      h3]
    simp [UIOp.apply, ViewerUI.onCurrentTab, ViewerUI.onTab, ViewerUI.getCurrentTab,
      AppTabs.Selected, PDFTab.onZoomIn, Controller.ZoomIn, demoController, demoEngine]
    norm_num
  have hc5 : (({ items := [0], current := 0 } : AppTabs).Append 1).Select 1 =
      { items := [0, 1], current := 1 } := by decide
  have hc6 : ({ items := [0, 1], current := 1 } : AppTabs).Select 0 =
      { items := [0, 1], current := 0 } := by decide
  rw [show [UIOp.onOpenFile "doc.pdf", .goLoad 0, .onNextPage, .onZoomIn, .addNewTab "",
      .selectTab 0] =
    ([UIOp.onOpenFile "doc.pdf", .goLoad 0, .onNextPage, .onZoomIn] ++ [.addNewTab ""]) ++
      [.selectTab 0] from rfl, runUI_snoc, runUI_snoc, h4]
  simp [UIOp.apply, ViewerUI.addNewTab, NewPDFTab, hc5, hc6]

/-- Witness for C15.  The first tab shows page 2 of `doc.pdf` at zoom 1.25 and
the second tab is empty.  With the first tab selected, picking `doc.pdf`
appends a third tab and leaves the two tabs as they were; with the second tab
selected, the file is loaded into it, no tab is added and the first tab still
shows page 2 at zoom 1.25. -/
theorem onOpenFile_routing_witness :
    (runUI demoWorld
        [.onOpenFile "doc.pdf", .goLoad 0, .onNextPage, .onZoomIn, .addNewTab "",
          .selectTab 0]).getCurrentTab =
        some { controller := demoController 2 1.25, tabItem := 0 } ∧
      ((runUI demoWorld
        [.onOpenFile "doc.pdf", .goLoad 0, .onNextPage, .onZoomIn, .addNewTab "",
          .selectTab 0]).onOpenFile "doc.pdf").tabs =
        [{ controller := demoController 2 1.25, tabItem := 0 },
          { controller := NewController, tabItem := 1 },
          { controller := NewController, tabItem := 2 }] ∧
      (runUI demoWorld
        [.onOpenFile "doc.pdf", .goLoad 0, .onNextPage, .onZoomIn, .addNewTab "",
          .selectTab 0, .selectTab 1]).getCurrentTab =
        some { controller := NewController, tabItem := 1 } ∧
      (((runUI demoWorld
        [.onOpenFile "doc.pdf", .goLoad 0, .onNextPage, .onZoomIn, .addNewTab "",
          .selectTab 0, .selectTab 1]).onOpenFile "doc.pdf").goLoad demoWorld 0).tabs =
        [{ controller := demoController 2 1.25, tabItem := 0 },
          { controller := demoController 1 1.0, tabItem := 1 }] := by
  have hc7 : ({ items := [0, 1], current := 0 } : AppTabs).Select 1 =
      { items := [0, 1], current := 1 } := by decide
  have hs7 : runUI demoWorld
      [.onOpenFile "doc.pdf", .goLoad 0, .onNextPage, .onZoomIn, .addNewTab "",
        .selectTab 0, .selectTab 1] =
      { tabContainer := { items := [0, 1], current := 1 },
        tabs := [{ controller := demoController 2 1.25, tabItem := 0 },
                 { controller := NewController, tabItem := 1 }],
        currentLang := LangEnglish, tr := GetTranslations LangEnglish, nextItem := 2,
        spawned := [] } := by
    rw [show [UIOp.onOpenFile "doc.pdf", .goLoad 0, .onNextPage, .onZoomIn, .addNewTab "",
        .selectTab 0, .selectTab 1] =
      [UIOp.onOpenFile "doc.pdf", .goLoad 0, .onNextPage, .onZoomIn, .addNewTab "",
        .selectTab 0] ++ [.selectTab 1] from rfl, runUI_snoc, runUI_two_tabs]
    simp [UIOp.apply, hc7]
  have hcur6 : (runUI demoWorld
      [.onOpenFile "doc.pdf", .goLoad 0, .onNextPage, .onZoomIn, .addNewTab "",
        .selectTab 0]).getCurrentTab =
      some { controller := demoController 2 1.25, tabItem := 0 } := by
    rw [runUI_two_tabs]
    simp [ViewerUI.getCurrentTab, AppTabs.Selected]
  have hcur7 : (runUI demoWorld
      [.onOpenFile "doc.pdf", .goLoad 0, .onNextPage, .onZoomIn, .addNewTab "",
        .selectTab 0, .selectTab 1]).getCurrentTab =
      some { controller := NewController, tabItem := 1 } := by
    rw [hs7]
    simp [ViewerUI.getCurrentTab, AppTabs.Selected]
  have hB := (onOpenFile_routing demoWorld
    [.onOpenFile "doc.pdf", .goLoad 0, .onNextPage, .onZoomIn, .addNewTab "", .selectTab 0]
    _ "doc.pdf" { controller := demoController 2 1.25, tabItem := 0 } rfl hcur6).2 rfl
  have hA := (onOpenFile_routing demoWorld
    [.onOpenFile "doc.pdf", .goLoad 0, .onNextPage, .onZoomIn, .addNewTab "", .selectTab 0,
      .selectTab 1]
    _ "doc.pdf" { controller := NewController, tabItem := 1 } rfl hcur7).1 rfl
  refine ⟨hcur6, ?_, hcur7, ?_⟩
  · rw [hB.1, runUI_two_tabs]
    rfl
  · have hlen : (runUI demoWorld
        [.onOpenFile "doc.pdf", .goLoad 0, .onNextPage, .onZoomIn, .addNewTab "",
          .selectTab 0, .selectTab 1]).spawned.length = 0 := by
      rw [hs7]; rfl
    have h4 := hA.2.2.2.1
    rw [hlen] at h4
    rw [h4, hs7]
    simp [Controller.OpenPDF, NewPDFEngine, demoWorld, NewController, demoController,
      demoEngine]

end PdfViewer
